import Mathlib

/-!
Verification of the geo_converter repository (hdf4 → netCDF4 converter).

This file shallowly embeds the decision logic of src/convert.py and the rule
tables of src/constants.py:

* python attribute dictionaries become ordered association lists over an
  `AttrValue` type (python numeric cross-type equality is modelled by merging
  ints and floats into one rational constructor);
* the regular-expression patterns of the rule tables are anchored prefix /
  infix / channel-template matchers, exactly the shapes that occur in
  constants.py (re.match anchors at the start of the name and does not require
  reaching its end; variable names are assumed newline-free);
* python exceptions (KeyError, TypeError, ValueError, AssertionError, the
  HDF4Error caught by the orchestrator, and netCDF sink failures) become an
  explicit `PyError` sum propagated through `Except`.

All definitions are executable; theorems at the end settle the frozen claims.
-/

namespace GeoConv

/-- Python exception kinds that the embedded code can raise.  Each constructor
corresponds to one raise-site family in src/convert.py. -/
inductive PyError
  | keyError
  | typeError
  | valueError
  | assertionError
  | hdf4Error
  | netcdfError
deriving DecidableEq, Repr

/-- Attribute values as stored in the hdf4 / netCDF attribute dictionaries.
Python ints and floats are merged into `num` (python compares them with
numeric equality, e.g. `1 == 1.0`), lists of numbers into `numList`, lists of
strings into `strList`. -/
inductive AttrValue
  | num (q : ℚ)
  | str (s : String)
  | numList (l : List ℚ)
  | strList (l : List String)
deriving DecidableEq, Repr

/-- Ordered association list modelling a python dict (insertion ordered,
unique keys by construction in all inputs we build). -/
abbrev AList (β : Type) := List (String × β)

def alookup {β : Type} : AList β → String → Option β
  | [], _ => none
  | (k, v) :: t, key => if k = key then some v else alookup t key

/-- python `d[key] = v`: replace in place (keeping the entry's position) when
the key exists, else append at the end. -/
def aset {β : Type} : AList β → String → β → AList β
  | [], key, v => [(key, v)]
  | (k, w) :: t, key, v =>
    if k = key then (key, v) :: t else (k, w) :: aset t key v

/-- python `del d[key]` (on a dict without duplicate keys). -/
def aerase {β : Type} (m : AList β) (key : String) : AList β :=
  m.filter (fun p => decide (p.1 ≠ key))

def acontains {β : Type} (m : AList β) (key : String) : Bool :=
  (alookup m key).isSome

abbrev AttrMap := AList AttrValue

/-! ## Decimal strings

python `str(...)` on a non-negative int, `int(...)` on a digit string, and
`str.zfill`, modelled on `List Char`. -/

def digitChar : ℕ → Char
  | 0 => '0' | 1 => '1' | 2 => '2' | 3 => '3' | 4 => '4'
  | 5 => '5' | 6 => '6' | 7 => '7' | 8 => '8' | _ => '9'

/-- Little-endian decimal digits of `n`, with explicit fuel (`n` itself is
always enough fuel). -/
def natDigitsAux : ℕ → ℕ → List ℕ
  | 0, _ => []
  | _ + 1, 0 => []
  | f + 1, n + 1 => ((n + 1) % 10) :: natDigitsAux f ((n + 1) / 10)

/-- python `str(n)` for a natural number. -/
def pyNatReprL (n : ℕ) : List Char :=
  if n = 0 then ['0'] else ((natDigitsAux n n).reverse.map digitChar)

def isDigitChar (c : Char) : Bool :=
  decide (48 ≤ c.toNat ∧ c.toNat ≤ 57)

def charDigitVal (c : Char) : ℕ := c.toNat - 48

/-- Value of a big-endian digit string (the accumulator fold used by int()). -/
def parseValBE (s : List Char) : ℕ :=
  s.foldl (fun a c => 10 * a + charDigitVal c) 0

/-- python `int(s)` restricted to plain digit strings (no sign / whitespace,
which never occur in the date and time attributes being parsed). -/
def parseDigits (s : List Char) : Option ℕ :=
  if s ≠ [] ∧ s.all isDigitChar then some (parseValBE s) else none

/-- python `s.zfill k` on a digit string. -/
def zfillL (k : ℕ) (s : List Char) : List Char :=
  List.replicate (k - s.length) '0' ++ s

def pad2L (n : ℕ) : List Char := zfillL 2 (pyNatReprL n)

def pad3L (n : ℕ) : List Char := zfillL 3 (pyNatReprL n)

/-- Greedy scan of at most `k` leading digits, returning them and the rest;
this is the behaviour of the `\d{1,k}` / `\d\d\d\d` fields of strptime. -/
def takeDigitsMax : ℕ → List Char → List Char × List Char
  | 0, s => ([], s)
  | _ + 1, [] => ([], [])
  | k + 1, c :: s =>
    if isDigitChar c then
      let p := takeDigitsMax k s
      (c :: p.1, p.2)
    else ([], c :: s)

/-! ## Calendar (the part of datetime used by the conversion) -/

def isLeap (y : ℕ) : Bool :=
  y % 4 = 0 ∧ (y % 100 ≠ 0 ∨ y % 400 = 0)

def daysInYear (y : ℕ) : ℕ := if isLeap y then 366 else 365

def monthLen (leap : Bool) : ℕ → ℕ
  | 2 => if leap then 29 else 28
  | 4 => 30 | 6 => 30 | 9 => 30 | 11 => 30
  | _ => 31

/-- Walk the months converting a day-of-year to (month, day). -/
def doyToMDAux (leap : Bool) : ℕ → ℕ → ℕ → ℕ × ℕ
  | m, d, 0 => (m, d)
  | m, d, fuel + 1 =>
    if d ≤ monthLen leap m then (m, d)
    else doyToMDAux leap (m + 1) (d - monthLen leap m) fuel

def doyToMD (leap : Bool) (doy : ℕ) : ℕ × ℕ := doyToMDAux leap 1 doy 11

/-- Result of `datetime.strptime(..., "%Y%j %H%M%S")`. -/
structure PyDateTime where
  year : ℕ
  doy : ℕ
  hour : ℕ
  minute : ℕ
  second : ℕ
deriving DecidableEq, Repr

/-- `datetime.strptime` for the fixed format `"%Y%j %H%M%S"` used at
convert.py:310.  `%Y` is exactly four digits, `%j` greedily one to three,
`%H`/`%M`/`%S` greedily one or two; the whole string must be consumed.
Out-of-range fields raise ValueError (here: `none`).  Day-of-year handling
past the end of the year is not modelled; all inputs reaching this parser in
the theorems below satisfy `1 ≤ doy ≤ daysInYear y`. -/
def strptimeYjHMS (s : List Char) : Option PyDateTime :=
  let py := takeDigitsMax 4 s
  if py.1.length = 4 then
    let pj := takeDigitsMax 3 py.2
    if pj.1 ≠ [] then
      match pj.2 with
      | ' ' :: r =>
        let ph := takeDigitsMax 2 r
        if ph.1 ≠ [] then
          let pm := takeDigitsMax 2 ph.2
          if pm.1 ≠ [] then
            let ps := takeDigitsMax 2 pm.2
            if ps.1 ≠ [] ∧ ps.2 = [] then
              let y := parseValBE py.1
              let d := parseValBE pj.1
              let h := parseValBE ph.1
              let mi := parseValBE pm.1
              let sec := parseValBE ps.1
              if 1 ≤ y ∧ 1 ≤ d ∧ d ≤ daysInYear y ∧ h ≤ 23 ∧ mi ≤ 59 ∧ sec ≤ 59 then
                some ⟨y, d, h, mi, sec⟩
              else none
            else none
          else none
        else none
      | _ => none
    else none
  else none

/-- ISO output string built exactly as `strftime("%Y-%m-%dT%H:%M:%SZ")`. -/
def isoUTCL (y doy h mi s : ℕ) : List Char :=
  zfillL 4 (pyNatReprL y) ++ ['-'] ++ pad2L (doyToMD (isLeap y) doy).1 ++ ['-'] ++
    pad2L (doyToMD (isLeap y) doy).2 ++ ['T'] ++ pad2L h ++ [':'] ++ pad2L mi ++
    [':'] ++ pad2L s ++ ['Z']

def isoUTC (y doy h mi s : ℕ) : String := ⟨isoUTCL y doy h mi s⟩

def strftimeISO (dt : PyDateTime) : String :=
  isoUTC dt.year dt.doy dt.hour dt.minute dt.second

/-- python `str(value)` for the attribute values that reach the date/time
composition.  Integer-valued numerics render in decimal; the renderings of
non-integer rationals and of lists never reach a claim and are placeholders. -/
def pyStr : AttrValue → String
  | .str s => s
  | .num q => if q.den = 1 ∧ 0 ≤ q.num then ⟨pyNatReprL q.num.toNat⟩ else ""
  | .numList _ => ""
  | .strList _ => ""

/-! ## Constants (src/constants.py) -/

def LINES_DIM_NAME : String := "lines"
def ELEMS_DIM_NAME : String := "elements"
def DETECTOR_DIM_NAME : String := "detector"
def CHANNEL_IDX_DIM_NAME : String := "channel_index"
def QF_DEPTH_DIM_NAME : String := "qf_depth"
def PACKED_BYTES_1_DIM_NAME : String := "bytes_cloud_mask_packed"
def PACKED_BYTES_2_DIM_NAME : String := "bytes_cloud_type_packed"

/-- The anchored-regex shapes occurring in the SPECIAL_VARIABLES table:
`re.match(".*?_planck", name)` succeeds exactly when `_planck` occurs
somewhere in the (newline-free) name, and `re.match("calibration_.*?", name)`
or `re.match("scan_line_time", name)` exactly when the literal is a prefix. -/
inductive NamePat
  | infixP (p : String)
  | prefixP (p : String)
deriving DecidableEq, Repr

/-- Does `p` occur contiguously anywhere in `s`? -/
def listHasInfix (p : List Char) : List Char → Bool
  | [] => p.isPrefixOf []
  | c :: t => p.isPrefixOf (c :: t) || listHasInfix p t

def patMatches : NamePat → String → Bool
  | .infixP p, n => listHasInfix p.data n.data
  | .prefixP p, n => p.data.isPrefixOf n.data

/-- One entry of SPECIAL_VARIABLES: a name pattern, the expected sizes
(`none` was python's `None`) and the expected dimension names. -/
structure SpecialRule where
  pat : NamePat
  sizes : List (Option ℕ)
  dimNames : List String
deriving DecidableEq, Repr

/-- SPECIAL_VARIABLES, in source listing order (the python-2 dict iteration
order is unspecified; a fixed deterministic order is used here). -/
def SPECIAL_VARIABLES : List SpecialRule :=
  [ ⟨.infixP "_planck", [none, none], [DETECTOR_DIM_NAME, CHANNEL_IDX_DIM_NAME]⟩,
    ⟨.prefixP "calibration_", [none, none], [DETECTOR_DIM_NAME, CHANNEL_IDX_DIM_NAME]⟩,
    ⟨.infixP "_wavenumber", [none, none], [DETECTOR_DIM_NAME, CHANNEL_IDX_DIM_NAME]⟩,
    ⟨.prefixP "scan_line_time", [none], [LINES_DIM_NAME]⟩,
    ⟨.infixP "_quality_flags1", [none, none, some 3],
      [LINES_DIM_NAME, ELEMS_DIM_NAME, QF_DEPTH_DIM_NAME]⟩,
    ⟨.infixP "_cloud_mask_packed", [none, none, some 7],
      [LINES_DIM_NAME, ELEMS_DIM_NAME, PACKED_BYTES_1_DIM_NAME]⟩,
    ⟨.infixP "_cloud_type_packed", [none, none, some 6],
      [LINES_DIM_NAME, ELEMS_DIM_NAME, PACKED_BYTES_2_DIM_NAME]⟩ ]

def FILL_VALUE_KEY : String := "_FillValue"
def IMAGE_DATE_ATTR_NAME : String := "Image_Date"
def IMAGE_TIME_ATTR_NAME : String := "Image_Time"
def IMAGE_DATETIME_ATTR_NAME : String := "Image_Date_Time"
def LIB_VERSION_ATTR_NAME : String := "Output_Library_Version"
def SCAN_LINE_TIME_VAR_NAME : String := "scan_line_time"
def VARS_TO_DELETE : List String := [SCAN_LINE_TIME_VAR_NAME]
def LONG_NAME_ATTR_NAME : String := "long_name"
def VALID_MIN_ATTR_NAME : String := "valid_min"
def VALID_MAX_ATTR_NAME : String := "valid_max"
def VALID_RANGE_ATTR_NAME : String := "valid_range"
def FLAG_VALS_ATTR_NAME : String := "flag_values"
def FLAG_MEANINGS_ATTR_NAME : String := "flag_meanings"
def UNITS_ATTR_NAME : String := "units"
def SCALE_FACTOR_ATTR_NAME : String := "scale_factor"
def ADD_OFFSET_ATTR_NAME : String := "add_offset"
def SCALING_METHOD_ATTR_NAME : String := "scaling_method"

def BAD_UNITS_1 : String := "no units"
def BAD_UNITS_2 : String := "none"
def CONVERT_ATTR_OLD : String := "mWm-2sr-1(cm-1)-1"
def CONVERT_ATTR_NEW : String := "mW m-2 sr-1 (cm-1)-1"

def SHORT_RANGE_DEFAULT : List ℚ := [-32768, 32767]

/-- One entry of LONG_NAME_MAP.  A `plain` entry is a literal regex key
(anchored: prefix match) with a fixed long name.  A `chan` entry is one of the
three channel patterns `(.+?)_channel_(\d+?)_SUFFIX` — exactly the members of
CHANNEL_DATA_PATTERNS — whose template receives `%` substitution of group 2
(the channel digits) and then group 1 (the instrument): the rendered value is
`pre ++ group2 ++ mid ++ group1`. -/
inductive LongNameEntry
  | plain (pat : String) (value : String)
  | chan (suffix : String) (pre : String) (mid : String)
deriving DecidableEq, Repr

def LONG_NAME_MAP : List LongNameEntry :=
  [ .plain "bc1_planck" "calibration coefficients “a”, for each channel",
    .plain "bc2_planck" "calibration coefficients “b”, for each channel",
    .plain "calibration_offset" "calibration constant offset",
    .plain "calibration_slope" "calibration constant slope",
    .plain "calibration_slope_degrade" "calibration constant slope degrade",
    .plain "calibration_solar_constant" "calibration constant solar constant",
    .plain "channel_wavenumber" "instrument-specific wavenumbers, for each channel",
    .plain "fk1_planck" "planck constant 1",
    .plain "fk2_planck" "planck constant 2",
    .chan "reflectance" "pixel-resolution array of reflectances for channel " " from ",
    .chan "emissivity" "pixel-resolution array of emissivities for channel " " from ",
    .chan "brightness_temperature"
      "pixel-resolution array of brightness temperatures for channel " " from ",
    .plain "pixel_ecosystem_type"
      "pixel-resolution array of ecosystem types, from a static ancillary file.",
    .plain "pixel_latitude" "pixel-resolution array of latitudes",
    .plain "pixel_longitude" "pixel-resolution array of longitudes",
    .plain "pixel_relative_azimuth_angle" "pixel-resolution array of relative azimuth angles",
    .plain "pixel_satellite_zenith_angle" "pixel-resolution array of satellite zenith angles",
    .plain "pixel_solar_zenith_angle" "pixel-resolution array of solar zenith angles",
    .plain "pixel_surface_type"
      "pixel-resolution array of surface types, from a static ancillary file.",
    .plain "nwp_x_index"
      "the x indices into the NWP data array that correspond with each pixel, or fill values if NWP data was not read in",
    .plain "nwp_y_index"
      "the y indices into the NWP data array that correspond with each pixel, or fill values if NWP data was not read in" ]

/-- Patterns keying RANGE_LIMS_MAP and FLAG_INFO_MAP. -/
inductive EnrichPat
  | lit (p : String)
  | chan (suffix : String)
deriving DecidableEq, Repr

def RANGE_LIMS_MAP : List (EnrichPat × List ℚ) :=
  [ (.chan "reflectance", [-32767, 32767]),
    (.chan "brightness_temperature", [-32767, 32767]),
    (.lit "pixel_ecosystem_type", [0, 100]),
    (.lit "pixel_relative_azimuth_angle", [-32767, 32767]),
    (.lit "pixel_satellite_zenith_angle", [-32767, 32767]),
    (.lit "pixel_solar_zenith_angle", [-32767, 32767]),
    (.lit "pixel_surface_type", [0, 13]) ]

def ECO_FLAG_VALUES : List ℚ :=
  (List.map (fun n => (n : ℚ)) (List.range 97)) ++ [100]

def ECO_FLAG_MEANINGS : List String :=
  [ "INTERRUPTED_AREAS_ECO", "URBAN_ECO", "LOW_SPARSE_GRASSLAND_ECO",
    "CONIFEROUS_FOREST_ECO", "DECIDUOUS_CONIFER_FOREST_ECO",
    "DECIDUOUS_BROADLEAF_FOREST1_ECO", "EVERGREEN_BROADLEAF_FORESTS_ECO",
    "TALL_GRASSES_AND_SHRUBS_ECO", "BARE_DESERT_ECO", "UPLAND_TUNDRA_ECO",
    "IRRIGATED_GRASSLAND_ECO", "SEMI_DESERT_ECO", "GLACIER_ICE_ECO",
    "WOODED_WET_SWAMP_ECO", "INLAND_WATER_ECO", "SEA_WATER_ECO",
    "SHRUB_EVERGREEN_ECO", "SHRUB_DECIDUOUS_ECO", "MIXED_FOREST_AND_FIELD_ECO",
    "EVERGREEN_FOREST_AND_FIELDS_ECO", "COOL_RAIN_FOREST_ECO",
    "CONIFER_BOREAL_FOREST_ECO", "COOL_CONIFER_FOREST_ECO",
    "COOL_MIXED_FOREST_ECO", "MIXED_FOREST_ECO", "COOL_BROADLEAF_FOREST_ECO",
    "DECIDUOUS_BROADLEAF_FOREST2_ECO", "CONIFER_FOREST_ECO",
    "MONTANE_TROPICAL_FORESTS_ECO", "SEASONAL_TROPICAL_FOREST_ECO",
    "COOL_CROPS_AND_TOWNS_ECO", "CROPS_AND_TOWN_ECO", "DRY_TROPICAL_WOODS_ECO",
    "TROPICAL_RAINFOREST_ECO", "TROPICAL_DEGRADED_FOREST_ECO",
    "CORN_AND_BEANS_CROPLAND_ECO", "RICE_PADDY_AND_FIELD_ECO",
    "HOT_IRRIGATED_CROPLAND_ECO", "COOL_IRRIGATED_CROPLAND_ECO",
    "COLD_IRRIGATED_CROPLAND_ECO", "COOL_GRASSES_AND_SHRUBS_ECO",
    "HOT_AND_MILD_GRASSES_AND_SHRUBS_ECO", "COLD_GRASSLAND_ECO", "SAVANNA_ECO",
    "MIRE_BOG_FEN_ECO", "MARSH_WETLAND_ECO", "MEDITERRANEAN_SCRUB_ECO",
    "DRY_WOODY_SCRUB_ECO", "DRY_EVERGREEN_WOODS_ECO", "VOLCANIC_ROCK_ECO",
    "SAND_DESERT_ECO", "SEMI_DESERT_SHRUBS_ECO", "SEMI_DESERT_SAGE_ECO",
    "BARREN_TUNDRA_ECO", "COOL_SOUTHERN_HEMISPHERE_MIXED_FORESTS_ECO",
    "COOL_FIELDS_AND_WOODS_ECO", "FOREST_AND_FIELD_ECO",
    "COOL_FOREST_AND_FIELD_ECO", "FIELDS_AND_WOODY_SAVANNA_ECO",
    "SUCCULENT_AND_THORN_SCRUB_ECO", "SMALL_LEAF_MIXED_WOODS_ECO",
    "DECIDUOUS_AND_MIXED_BOREAL_FOREST_ECO", "NARROW_CONIFERS_ECO",
    "WOODED_TUNDRA_ECO", "HEATH_SCRUB_ECO", "COASTAL_WETLAND_NW_ECO",
    "COASTAL_WETLAND_NE_ECO", "COASTAL_WETLAND_SE_ECO", "COASTAL_WETLAND_SW_ECO",
    "POLAR_AND_ALPINE_DESERT_ECO", "GLACIER_ROCK_ECO", "SALT_PLAYAS_ECO",
    "MANGROVE_ECO", "WATER_AND_ISLAND_FRINGE_ECO", "LAND_WATER_AND_SHORE_ECO",
    "LAND_AND_WATER_RIVERS_ECO", "CROP_AND_WATER_MIXTURES_ECO",
    "SOUTHERN_HEMISPHERE_CONIFERS_ECO", "SOUTHERN_HEMISPHERE_MIXED_FOREST_ECO",
    "WET_SCLEROPHYLIC_FOREST_ECO", "COASTLINE_FRINGE_ECO",
    "BEACHES_AND_DUNES_ECO", "SPARSE_DUNES_AND_RIDGES_ECO",
    "BARE_COASTAL_DUNES_ECO", "RESIDUAL_DUNES_AND_BEACHES_ECO",
    "COMPOUND_COASTLINES_ECO", "ROCKY_CLIFFS_AND_SLOPES_ECO",
    "SANDY_GRASSLAND_AND_SHRUBS_ECO", "BAMBOO_ECO", "MOIST_EUCALYPTUS_ECO",
    "RAIN_GREEN_TROPICAL_FOREST_ECO", "WOODY_SAVANNA_ECO", "BROADLEAF_CROPS_ECO",
    "GRASS_CROPS_ECO", "CROPS_GRASS_SHRUBS_ECO", "EVERGREEN_TREE_CROP_ECO",
    "DECIDUOUS_TREE_CROP_ECO", "NO_DATA_ECO" ]

def SFC_FLAG_VALUES : List ℚ :=
  [0, 1, 2, 3, 4, 5, 6, 7, 8, 9, 10, 11, 12, 13]

def SFC_FLAG_MEANINGS : List String :=
  [ "WATER_SFC", "EVERGREEN_NEEDLE_SFC", "EVERGREEN_BROAD_SFC",
    "DECIDUOUS_NEEDLE_SFC", "DECIDUOUS_BROAD_SFC", "MIXED_FORESTS_SFC",
    "WOODLANDS_SFC", "WOODED_GRASS_SFC", "CLOSED_SHRUBS_SFC", "OPEN_SHRUBS_SFC",
    "GRASSES_SFC", "CROPLANDS_SFC", "BARE_SFC", "URBAN_SFC" ]

def FLAG_INFO_MAP : List (EnrichPat × List ℚ × List String) :=
  [ (.lit "pixel_ecosystem_type", ECO_FLAG_VALUES, ECO_FLAG_MEANINGS),
    (.lit "pixel_surface_type", SFC_FLAG_VALUES, SFC_FLAG_MEANINGS) ]

/-! ## The channel patterns `(.+?)_channel_(\d+?)_SUFFIX`

`re.match` with full backtracking for exactly this pattern shape: group 1 is
any non-empty (newline-free) text, then the literal `_channel_`, then group 2,
a non-empty digit run taken non-greedily, then the literal `_SUFFIX`; the
match need not reach the end of the name. -/

def CHANNEL_SEP : List Char := "_channel_".data

/-- Non-greedy `(\d+?)` followed by the literal `sep2`: take the shortest
non-empty digit run after which `sep2` starts; returns the digit group. -/
def digitsThenAux (sep2 : List Char) : List Char → List Char → Option (List Char)
  | acc, [] => if sep2.isPrefixOf ([] : List Char) then some acc.reverse else none
  | acc, c :: t =>
    if sep2.isPrefixOf (c :: t) then some acc.reverse
    else if isDigitChar c then digitsThenAux sep2 (c :: acc) t
    else none

def digitsThen (sep2 : List Char) : List Char → Option (List Char)
  | [] => none
  | c :: t => if isDigitChar c then digitsThenAux sep2 [c] t else none

/-- Try every split point for the non-greedy `(.+?)` group, shortest first;
`acc` holds the reversed group-1 candidate. -/
def channelAux (sep2 : List Char) : List Char → List Char → Option (List Char × List Char)
  | _, [] => none
  | acc, c :: t =>
    let acc2 := c :: acc
    if CHANNEL_SEP.isPrefixOf t then
      match digitsThen sep2 (t.drop CHANNEL_SEP.length) with
      | some d => some (acc2.reverse, d)
      | none => channelAux sep2 acc2 t
    else channelAux sep2 acc2 t

/-- `re.match("(.+?)_channel_(\d+?)_" ++ suffix, name)`, returning
(group 1, group 2) on success. -/
def channelMatch (suffix : List Char) (name : List Char) : Option (List Char × List Char) :=
  channelAux ('_' :: suffix) [] name

def enrichMatches (p : EnrichPat) (name : String) : Bool :=
  match p with
  | .lit s => s.data.isPrefixOf name.data
  | .chan suffix => (channelMatch suffix.data name.data).isSome

/-! ## Metadata Rewriter (convert.py, compliance_cleanup) -/

/-- Per-variable catalog record (shape plus attribute dict), as produced by
read_hdf4_info. -/
structure VarInfo where
  shape : List ℕ
  attrs : AttrMap
deriving DecidableEq, Repr

/-- Per-file catalog: global attributes, variable list, variable info map
(the dict returned by read_hdf4_info). -/
structure FileInfo where
  globalAttrs : AttrMap
  varList : List String
  varInfo : AList VarInfo
deriving DecidableEq, Repr

/-- Global-attribute rewriting, convert.py:304-321.  Looks up and deletes
Image_Date and Image_Time (KeyError when absent), re-encodes the year
(`int(str(image_date)[0:3]) + 1900`), parses the composed
`"%Y%j %H%M%S"` string, stores the ISO timestamp under Image_Date_Time, and
overwrites Output_Library_Version with the netCDF4 library identity string
`libv` (environment-dependent in the source, hence a parameter here). -/
def compliance_global (libv : String) (g : AttrMap) : Except PyError AttrMap :=
  match alookup g IMAGE_DATE_ATTR_NAME with
  | none => .error .keyError
  | some image_date =>
    match alookup (aerase g IMAGE_DATE_ATTR_NAME) IMAGE_TIME_ATTR_NAME with
    | none => .error .keyError
    | some image_time =>
      match parseDigits ((pyStr image_date).data.take 3) with
      | none => .error .valueError
      | some y3 =>
        match strptimeYjHMS (pyNatReprL (y3 + 1900) ++
            ((pyStr image_date).data.drop 3).take 3 ++ [' '] ++
            zfillL 6 (pyStr image_time).data) with
        | none => .error .valueError
        | some dt =>
          .ok (aset (aset (aerase (aerase g IMAGE_DATE_ATTR_NAME) IMAGE_TIME_ATTR_NAME)
            IMAGE_DATETIME_ATTR_NAME (.str (strftimeISO dt)))
            LIB_VERSION_ATTR_NAME (.str libv))

/-- python `value == q` for a numeric literal `q` (None and non-numeric
values compare unequal without raising). -/
def pyEqNum : Option AttrValue → ℚ → Bool
  | some (.num x), q => x = q
  | _, _ => false

/-- Scale pruning, convert.py:343-369.  Returns the updated attributes and
the `did_set_ranges` flag.  In the pruning branch, `del attrs["scaling_method"]`
raises KeyError when that attribute is absent; in the range branch a missing
fill value raises KeyError (a non-numeric one would fail the `<=` comparison,
modelled as TypeError). -/
def scalePrune (attrs : AttrMap) : Except PyError (AttrMap × Bool) :=
  let sf := alookup attrs SCALE_FACTOR_ATTR_NAME
  let ao := alookup attrs ADD_OFFSET_ATTR_NAME
  if pyEqNum sf 1 ∧ pyEqNum ao 0 then
    let a := aerase (aerase attrs SCALE_FACTOR_ATTR_NAME) ADD_OFFSET_ATTR_NAME
    if acontains a SCALING_METHOD_ATTR_NAME then
      .ok (aerase a SCALING_METHOD_ATTR_NAME, false)
    else .error .keyError
  else if sf.isSome ∧ ao.isSome then
    match alookup attrs FILL_VALUE_KEY with
    | none => .error .keyError
    | some (.num f) =>
      let lo := if f ≤ 0 then f + 1 else -32768
      let hi := if f ≤ 0 then 32767 else f - 1
      let a := aset attrs VALID_RANGE_ATTR_NAME (.numList [lo, hi])
      let a := aset a VALID_MIN_ATTR_NAME (.num lo)
      let a := aset a VALID_MAX_ATTR_NAME (.num hi)
      .ok (a, true)
    | some _ => .error .typeError
  else .ok (attrs, false)

/-- Units normalization, convert.py:379-391: a units value of "no units" or
"none" is replaced by "1" when the variable has 2 or more axes, and deleted
otherwise (the `"shape" in var_info` guard always holds for catalogs built by
read_hdf4_info). -/
def unitsNormalize (shape : List ℕ) (attrs : AttrMap) : AttrMap :=
  match alookup attrs UNITS_ATTR_NAME with
  | some u =>
    if u = .str BAD_UNITS_1 ∨ u = .str BAD_UNITS_2 then
      if 2 ≤ shape.length then aset attrs UNITS_ATTR_NAME (.str "1")
      else aerase attrs UNITS_ATTR_NAME
    else attrs
  | none => attrs

def convVal (v : AttrValue) : AttrValue :=
  if v = .str CONVERT_ATTR_OLD then .str CONVERT_ATTR_NEW else v

/-- Value remap, convert.py:393-399: every attribute whose value equals a key
of CONVERT_ATTRS_MAP is replaced by the mapped value. -/
def convertAttrs (attrs : AttrMap) : AttrMap :=
  attrs.map (fun p => (p.1, convVal p.2))

/-- The long name an entry contributes for `name`, when its pattern matches. -/
def longNameOf (e : LongNameEntry) (name : String) : Option String :=
  match e with
  | .plain p v => if p.data.isPrefixOf name.data then some v else none
  | .chan suffix pre mid =>
    (channelMatch suffix.data name.data).map
      (fun g => pre ++ String.mk g.2 ++ mid ++ String.mk g.1)

/-- Long-name injection, convert.py:403-413: the loop visits every pattern of
LONG_NAME_MAP and stores the rendered long name for each one that matches
(there is no break, so a later matching pattern overwrites an earlier one). -/
def addLongName (name : String) (attrs : AttrMap) : AttrMap :=
  LONG_NAME_MAP.foldl
    (fun a e =>
      match longNameOf e name with
      | some v => aset a LONG_NAME_ATTR_NAME (.str v)
      | none => a)
    attrs

def setRangeAttrs (attrs : AttrMap) (rng : List ℚ) : AttrMap :=
  let a := aset attrs VALID_RANGE_ATTR_NAME (.numList rng)
  let a := aset a VALID_MIN_ATTR_NAME (.num (rng.headI))
  aset a VALID_MAX_ATTR_NAME (.num (rng.getLastI))

/-- Range injection, convert.py:415-424: every matching pattern fires unless
`did_set_ranges` was set by scale pruning. -/
def addRanges (name : String) (didSet : Bool) (attrs : AttrMap) : AttrMap :=
  RANGE_LIMS_MAP.foldl
    (fun a e => if enrichMatches e.1 name ∧ ¬didSet then setRangeAttrs a e.2 else a)
    attrs

/-- Flag injection, convert.py:426-433: every matching pattern fires unless
`did_set_ranges` was set by scale pruning. -/
def addFlags (name : String) (didSet : Bool) (attrs : AttrMap) : AttrMap :=
  FLAG_INFO_MAP.foldl
    (fun a e =>
      if enrichMatches e.1 name ∧ ¬didSet then
        aset (aset a FLAG_VALS_ATTR_NAME (.numList e.2.1))
          FLAG_MEANINGS_ATTR_NAME (.strList e.2.2)
      else a)
    attrs

/-- Per-variable attribute cleanup: the body of the loop at convert.py:336-433
(the scaling-method check at 371-377 only logs a warning and is a no-op on the
catalog). -/
def cleanup_variable (name : String) (shape : List ℕ) (attrs : AttrMap) :
    Except PyError AttrMap := do
  let (attrs, didSet) ← scalePrune attrs
  let attrs := unitsNormalize shape attrs
  let attrs := convertAttrs attrs
  let attrs := addLongName name attrs
  let attrs := addRanges name didSet attrs
  .ok (addFlags name didSet attrs)

/-- Variable deletion, convert.py:328-333: each name of VARS_TO_DELETE that is
present is removed from the variable-info map and the variable list is rebuilt
from the map's keys. -/
def deleteVars (fi : FileInfo) : FileInfo :=
  VARS_TO_DELETE.foldl
    (fun fi n =>
      if acontains fi.varInfo n then
        let vi := aerase fi.varInfo n
        { fi with varInfo := vi, varList := vi.map Prod.fst }
      else fi)
    fi

/-- The per-variable loop (convert.py:336): each entry's attributes are
rewritten in dict order; the first uncaught exception aborts. -/
def cleanupVars : AList VarInfo → Except PyError (AList VarInfo)
  | [] => .ok []
  | (n, vi) :: t => do
    let a ← cleanup_variable n vi.shape vi.attrs
    let rest ← cleanupVars t
    .ok ((n, VarInfo.mk vi.shape a) :: rest)

/-- compliance_cleanup, convert.py:264-445: global-attribute rewriting, then
variable deletion, then per-variable cleanup of every remaining variable (in
dict order, modelled as insertion order). -/
def compliance_cleanup (libv : String) (fi : FileInfo) : Except PyError FileInfo := do
  let g ← compliance_global libv fi.globalAttrs
  let vi ← cleanupVars (deleteVars { fi with globalAttrs := g }).varInfo
  .ok { deleteVars { fi with globalAttrs := g } with varInfo := vi }

/-- Contents of the object returned by read_hdf4_info after one per-file
conversion run.  compliance_cleanup documents (convert.py:267) and performs
(convert.py:306-433, `del` / subscript assignment) in-place mutation, and
hdf4_2_netcdf4 passes it the very dict read from the source (convert.py:531,
537) without any copy, so the original catalog's post-run contents are exactly
the cleanup result. -/
def catalogAfterRun (libv : String) (src : FileInfo) : Except PyError FileInfo :=
  compliance_cleanup libv src

/-! ## Dimension Resolver (convert.py, determine_dimensions)

The resolver logic is generic in the special-variables table (a module-level
constant in the source); `determine_dimensions` instantiates it with
SPECIAL_VARIABLES. -/

/-- State of the first (regular-variable) pass. -/
structure P1State where
  dims : AList (Option ℕ)
  vdi : AList (List String)
  deferred : List String
  linesNum : Option ℕ
  elemsNum : Option ℕ
deriving DecidableEq, Repr

/-- Number of special patterns matching `name`; the source appends the name
to vars_to_process_last once per matching pattern (convert.py:160-163). -/
def countMatches (tbl : List SpecialRule) (name : String) : ℕ :=
  (tbl.filter (fun r => patMatches r.pat name)).length

/-- Elements-dimension handling for a regular 2-D variable (convert.py:189-204),
entered only when the lines check passed. -/
def pass1Elems (st : P1State) (name : String) (b : ℕ) : P1State :=
  match st.elemsNum with
  | none =>
    { st with
      elemsNum := some b,
      dims := aset st.dims ELEMS_DIM_NAME (some b),
      vdi := aset st.vdi name [LINES_DIM_NAME, ELEMS_DIM_NAME] }
  | some e =>
    if e ≠ b then { st with deferred := st.deferred ++ [name] }
    else { st with vdi := aset st.vdi name [LINES_DIM_NAME, ELEMS_DIM_NAME] }

/-- First-pass body (convert.py:156-208). -/
def pass1Step (tbl : List SpecialRule) (varInfo : AList VarInfo) (st : P1State)
    (name : String) : Except PyError P1State :=
  if 0 < countMatches tbl name then
    .ok { st with deferred := st.deferred ++ List.replicate (countMatches tbl name) name }
  else
    match alookup varInfo name with
    | none => .error .keyError
    | some vi =>
      match vi.shape with
      | [a, b] =>
        match st.linesNum with
        | none =>
          .ok (pass1Elems
            { st with
              linesNum := some a,
              dims := aset st.dims LINES_DIM_NAME (some a) }
            name b)
        | some l =>
          if l ≠ a then .ok { st with deferred := st.deferred ++ [name] }
          else .ok (pass1Elems st name b)
      | _ => .ok { st with deferred := st.deferred ++ [name] }

/-- State of the second (special/deferred) pass.  The temporary-dimension
counter of the source is omitted: the only place it is used,
`TEMP_DIM_NAME + temp_dim_index_counter` (convert.py:239), concatenates a str
and an int and therefore raises TypeError before the counter is ever read
back. -/
structure P2State where
  dims : AList (Option ℕ)
  vdi : AList (List String)
deriving DecidableEq, Repr

/-- The rule-search loop (convert.py:217-222) overwrites the expected shape
for every matching pattern, so the last matching table entry wins. -/
def findRule (tbl : List SpecialRule) (name : String) : Option SpecialRule :=
  tbl.foldl (fun acc r => if patMatches r.pat name then some r else acc) none

/-- One axis of the registration loop (convert.py:250-258).  When the
dimension name is already present, `assert dim_size is dimensions[dim_name] or
dim_size is None` fails — AssertionError — exactly on a numeric mismatch
(all concrete sizes in the tables are small CPython-cached ints, so `is`
coincides with equality). -/
def registerAxis (dims : AList (Option ℕ)) (nm : String) (sz : Option ℕ) :
    Except PyError (AList (Option ℕ)) :=
  match alookup dims nm with
  | some existing =>
    if sz = existing ∨ sz = none then .ok dims else .error .assertionError
  | none => .ok (aset dims nm sz)

def registerDims (dims : AList (Option ℕ)) :
    List String → List (Option ℕ) → Except PyError (AList (Option ℕ))
  | [], _ => .ok dims
  | _ :: _, [] => .error .typeError
  | n :: ns, s :: ss => do
    let d ← registerAxis dims n s
    registerDims d ns ss

/-- Second-pass body (convert.py:212-260).  A deferred variable matching no
special rule reaches the temporary-dimension branch, which raises TypeError
(convert.py:239, `"temp_dim_" + counter`) unless the variable is 0-dimensional
(then the generation loop is empty). -/
def pass2Step (tbl : List SpecialRule) (varInfo : AList VarInfo) (st : P2State)
    (name : String) : Except PyError P2State :=
  match findRule tbl name with
  | some r => do
    let dims ← registerDims st.dims r.dimNames r.sizes
    .ok { dims := dims, vdi := aset st.vdi name r.dimNames }
  | none =>
    match alookup varInfo name with
    | none => .error .keyError
    | some vi =>
      match vi.shape with
      | [] => .ok { st with vdi := aset st.vdi name [] }
      | _ :: _ => .error .typeError

/-- determine_dimensions (convert.py:133-262), generic in the rule table. -/
def determine_dimensionsT (tbl : List SpecialRule) (fi : FileInfo) :
    Except PyError (AList (Option ℕ) × AList (List String)) := do
  let st1 ← fi.varList.foldlM (pass1Step tbl fi.varInfo) ⟨[], [], [], none, none⟩
  let st2 ← st1.deferred.foldlM (pass2Step tbl fi.varInfo) ⟨st1.dims, st1.vdi⟩
  .ok (st2.dims, st2.vdi)

def determine_dimensions (fi : FileInfo) :
    Except PyError (AList (Option ℕ) × AList (List String)) :=
  determine_dimensionsT SPECIAL_VARIABLES fi

/-! ## Conversion Orchestrator (convert.py, hdf4_2_netcdf4)

One input file is abstracted by whether the hdf4 open succeeds (and if so,
the catalog read from it), whether the output path already exists, and
whether creating/writing the netCDF sink fails externally. -/

structure InputFile where
  openOk : Option FileInfo
  outputExists : Bool
  sinkCreateFails : Bool
deriving DecidableEq, Repr

/-- write_netCDF4_file (convert.py:447-495) as observed by the orchestrator:
the sink is created (may fail externally), then determine_dimensions runs (its
AssertionError / TypeError propagate), then dimensions, attributes and data
are streamed out. -/
def writeStep (tbl : List SpecialRule) (inp : InputFile) (fi : FileInfo) :
    Except PyError Unit := do
  if inp.sinkCreateFails then .error .netcdfError
  else do
    let _ ← determine_dimensionsT tbl fi
    .ok ()

/-- The per-file loop body of hdf4_2_netcdf4 (convert.py:514-558), carrying
the batch-wide code_to_return.  On an open failure the source records code 2
but then still calls compliance_cleanup(None) — in_file_info is None —
which raises an uncaught TypeError (NoneType is not subscriptable), crashing
the whole batch.  Exceptions from compliance_cleanup are likewise uncaught;
`except Exception` around the write step turns any of its failures into
code 4. -/
def processFile (libv : String) (tbl : List SpecialRule) (code : ℕ)
    (inp : InputFile) : Except PyError ℕ :=
  match inp.openOk with
  | none => .error .typeError
  | some fi => do
    let fi2 ← compliance_cleanup libv fi
    let code := if inp.outputExists then 3 else code
    match writeStep tbl inp fi2 with
    | .error _ => .ok 4
    | .ok _ => .ok code

def convertLoop (libv : String) (tbl : List SpecialRule) :
    ℕ → List InputFile → Except PyError ℕ
  | code, [] => .ok code
  | code, f :: rest => do
    let c ← processFile libv tbl code f
    convertLoop libv tbl c rest

/-- hdf4_2_netcdf4 (convert.py:497-560), generic in the rule table: the batch
code starts at 1 when no input files were given, else 0, and the per-file loop
updates it. -/
def hdf4_2_netcdf4T (libv : String) (tbl : List SpecialRule)
    (files : List InputFile) : Except PyError ℕ :=
  convertLoop libv tbl (if files.isEmpty then 1 else 0) files

def hdf4_2_netcdf4 (libv : String) (files : List InputFile) : Except PyError ℕ :=
  hdf4_2_netcdf4T libv SPECIAL_VARIABLES files

/-- An incoming-code-agnostic view of one file's outcome. -/
def fileOutcome (libv : String) (tbl : List SpecialRule) (inp : InputFile) :
    Except PyError ℕ :=
  processFile libv tbl 0 inp

/-! ## Concrete sample inputs used by the claim theorems and witnesses -/

/-- A concrete netCDF4 library identity string (the source takes whatever
pkg_resources reports for the installed library). -/
def vStr : String := "netCDF4 1.2.4"

/-- A minimal well-formed catalog: valid legacy date/time globals and one
regular 2-D variable with no attributes. -/
def sampleInfo : FileInfo :=
  { globalAttrs :=
      [(IMAGE_DATE_ATTR_NAME, .str "115032"), (IMAGE_TIME_ATTR_NAME, .str "83000")],
    varList := ["my_var"],
    varInfo := [("my_var", ⟨[2, 3], []⟩)] }

/-- An input file whose hdf4 open raises HDF4Error. -/
def badInput : InputFile := ⟨none, false, false⟩

/-- An input file that converts fully successfully. -/
def goodInput : InputFile := ⟨some sampleInfo, false, false⟩

/-- An input file whose netCDF sink creation fails (per-file code 4). -/
def fileSinkFail : InputFile := ⟨some sampleInfo, false, true⟩

/-- An input file whose output path already exists (per-file code 3). -/
def fileOutExists : InputFile := ⟨some sampleInfo, true, false⟩

/-- Catalog with two regular 2-D variables of shapes (100,200) and (100,201)
(names match no special pattern): the claimed temporary-dimension scenario. -/
def mismatchFile : FileInfo :=
  ⟨[], ["var_a", "var_b"], [("var_a", ⟨[100, 200], []⟩), ("var_b", ⟨[100, 201], []⟩)]⟩

/-- Catalog containing only scan_line_time with raw shape (10,). -/
def scanOnlyFile : FileInfo :=
  ⟨[], ["scan_line_time"], [("scan_line_time", ⟨[10], []⟩)]⟩

/-- Attributes exercising the scale-pruning branch (scale 1.0, offset 0.0). -/
def attrsUnscaled : AttrMap :=
  [(SCALE_FACTOR_ATTR_NAME, .num 1), (ADD_OFFSET_ATTR_NAME, .num 0),
   (SCALING_METHOD_ATTR_NAME, .num 1)]

/-- Attributes exercising the packed-range branch (scale 0.01, offset 0.0,
fill value -32768). -/
def attrsPacked : AttrMap :=
  [(SCALE_FACTOR_ATTR_NAME, .num (1 / 100)), (ADD_OFFSET_ATTR_NAME, .num 0),
   (FILL_VALUE_KEY, .num (-32768))]

/-- A rule table (same shape of data as SPECIAL_VARIABLES) in which two rules
declare different concrete sizes for the same dimension name; with the
repository's shipped table no reachable pair of rules conflicts, so the
conflict path is exercised through the table parameter. -/
def conflictTable : List SpecialRule :=
  [⟨.prefixP "aa", [some 3], ["dd"]⟩, ⟨.prefixP "bb", [some 4], ["dd"]⟩]

/-- Catalog whose two variables trigger the conflicting registrations under
`conflictTable`. -/
def conflictInfo : FileInfo :=
  { globalAttrs :=
      [(IMAGE_DATE_ATTR_NAME, .str "115032"), (IMAGE_TIME_ATTR_NAME, .str "83000")],
    varList := ["aa1", "bb1"],
    varInfo := [("aa1", ⟨[3], []⟩), ("bb1", ⟨[4], []⟩)] }

def conflictInput : InputFile := ⟨some conflictInfo, false, false⟩

/-- The cleanup result of `conflictInfo` (total by construction: cleanup
succeeds on it, and the fallback branch is never taken). -/
def conflictCleaned : FileInfo :=
  match compliance_cleanup vStr conflictInfo with
  | .ok r => r
  | .error _ => conflictInfo

/-- Catalog containing scan_line_time next to a regular variable, used to
witness the deletion-list behaviour. -/
def delFile : FileInfo :=
  { globalAttrs :=
      [(IMAGE_DATE_ATTR_NAME, .str "115032"), (IMAGE_TIME_ATTR_NAME, .str "83000")],
    varList := ["scan_line_time", "pixel_latitude"],
    varInfo := [("scan_line_time", ⟨[10], []⟩), ("pixel_latitude", ⟨[10, 20], []⟩)] }

/-- The cleanup result of `delFile` (total by construction). -/
def delCleaned : FileInfo :=
  match compliance_cleanup vStr delFile with
  | .ok r => r
  | .error _ => delFile

/-- The cleanup result of `sampleInfo` (total by construction). -/
def sampleCleaned : FileInfo :=
  match compliance_cleanup vStr sampleInfo with
  | .ok r => r
  | .error _ => sampleInfo

/-- Value of a little-endian digit list. -/
def valLE : List ℕ → ℕ
  | [] => 0
  | d :: t => d + 10 * valLE t

/-- Value of a big-endian digit list. -/
def valBE : List ℕ → ℕ
  | [] => 0
  | d :: t => d * 10 ^ t.length + valBE t

/-- The long name contributed by the LAST matching entry of a long-name
table (specification of the overwriting fold in `addLongName`). -/
def lastLongName (name : String) : List LongNameEntry → Option String
  | [] => none
  | e :: t =>
    match lastLongName name t with
    | some v => some v
    | none => longNameOf e name

/-- The range contributed by the LAST matching entry of a range table
(specification of the overwriting fold in `addRanges`). -/
def lastRangeRule (name : String) : List (EnrichPat × List ℚ) → Option (List ℚ)
  | [] => none
  | e :: t =>
    match lastRangeRule name t with
    | some v => some v
    | none => if enrichMatches e.1 name then some e.2 else none

/-- The flag pair contributed by the LAST matching entry of a flag table
(specification of the overwriting fold in `addFlags`). -/
def lastFlagRule (name : String) :
    List (EnrichPat × List ℚ × List String) → Option (List ℚ × List String)
  | [] => none
  | e :: t =>
    match lastFlagRule name t with
    | some v => some v
    | none => if enrichMatches e.1 name then some e.2 else none

/-! # Lemmas

## Association lists -/

theorem alookup_aset_self {β : Type} (m : AList β) (k : String) (v : β) :
    alookup (aset m k v) k = some v := by
  induction m with
  | nil => simp [aset, alookup]
  | cons p t ih =>
    cases p with
    | mk k0 v0 =>
      by_cases h : k0 = k
      · simp [aset, h, alookup]
      · simp [aset, h, alookup, ih]

theorem alookup_aset_ne {β : Type} (m : AList β) (k : String) (v : β)
    (k' : String) (h : k' ≠ k) :
    alookup (aset m k v) k' = alookup m k' := by
  induction m with
  | nil => simp [aset, alookup, Ne.symm h]
  | cons p t ih =>
    cases p with
    | mk k0 v0 =>
      by_cases h0 : k0 = k
      · subst h0
        simp [aset, alookup, Ne.symm h]
      · by_cases h1 : k0 = k'
        · simp [aset, alookup, h0, h1, h]
        · simp [aset, alookup, h0, h1, ih]

theorem alookup_aerase_self {β : Type} (m : AList β) (k : String) :
    alookup (aerase m k) k = none := by
  induction m with
  | nil => rfl
  | cons p t ih =>
    cases p with
    | mk k0 v0 =>
      by_cases h : k0 = k
      · simpa [aerase, List.filter_cons, h] using ih
      · simpa [aerase, List.filter_cons, h, alookup] using ih

theorem alookup_aerase_ne {β : Type} (m : AList β) (k : String)
    (k' : String) (h : k' ≠ k) :
    alookup (aerase m k) k' = alookup m k' := by
  induction m with
  | nil => rfl
  | cons p t ih =>
    cases p with
    | mk k0 v0 =>
      by_cases h0 : k0 = k
      · subst h0
        simpa [aerase, List.filter_cons, alookup, Ne.symm h] using ih
      · by_cases h1 : k0 = k'
        · simp [aerase, List.filter_cons, h0, alookup, h1, h]
        · simpa [aerase, List.filter_cons, h0, alookup, h1] using ih

theorem alookup_eq_none_iff {β : Type} (m : AList β) (k : String) :
    alookup m k = none ↔ k ∉ m.map Prod.fst := by
  induction m with
  | nil => simp [alookup]
  | cons p t ih =>
    cases p with
    | mk k0 v0 =>
      by_cases h : k0 = k
      · simp [alookup, h]
      · simp [alookup, h, ih, Ne.symm h]

theorem alookup_aset_isSome {β : Type} (m : AList β) (k : String) (v : β)
    (k' : String) :
    (alookup (aset m k v) k').isSome ↔ k' = k ∨ (alookup m k').isSome := by
  by_cases h : k' = k
  · subst h
    simp [alookup_aset_self]
  · simp [alookup_aset_ne m k v k' h, h]

/-! ## Decimal digit strings -/

theorem charDigitVal_digitChar : ∀ d < 10, charDigitVal (digitChar d) = d := by decide

theorem isDigitChar_digitChar : ∀ d < 10, isDigitChar (digitChar d) = true := by decide

theorem natDigitsAux_val : ∀ f n : ℕ, n ≤ f → valLE (natDigitsAux f n) = n := by
  intro f
  induction f with
  | zero =>
    intro n hn
    have : n = 0 := Nat.le_zero.mp hn
    subst this
    rfl
  | succ f ih =>
    intro n hn
    match n with
    | 0 => rfl
    | n + 1 =>
      have hdiv : (n + 1) / 10 ≤ f := by
        have h10 : (n + 1) / 10 < n + 1 := Nat.div_lt_self (Nat.succ_pos n) (by norm_num)
        omega
      simp only [natDigitsAux, valLE, ih _ hdiv]
      omega

theorem natDigitsAux_lt : ∀ f n d : ℕ, d ∈ natDigitsAux f n → d < 10 := by
  intro f
  induction f with
  | zero =>
    intro n d hmem
    simp [natDigitsAux] at hmem
  | succ f ih =>
    intro n d hmem
    match n with
    | 0 => simp [natDigitsAux] at hmem
    | n + 1 =>
      simp only [natDigitsAux, List.mem_cons] at hmem
      rcases hmem with hmem | hmem
      · subst hmem
        exact Nat.mod_lt _ (by norm_num)
      · exact ih _ _ hmem

theorem natDigitsAux_len_le : ∀ f n k : ℕ, n ≤ f → n < 10 ^ k →
    (natDigitsAux f n).length ≤ k := by
  intro f
  induction f with
  | zero =>
    intro n k _ _
    simp [natDigitsAux]
  | succ f ih =>
    intro n k hn hk
    match n with
    | 0 => simp [natDigitsAux]
    | n + 1 =>
      match k with
      | 0 =>
        simp only [pow_zero] at hk
        omega
      | k + 1 =>
        simp only [natDigitsAux, List.length_cons]
        have h1 : (n + 1) / 10 ≤ f := by
          have h10 : (n + 1) / 10 < n + 1 := Nat.div_lt_self (Nat.succ_pos n) (by norm_num)
          omega
        have h2 : (n + 1) / 10 < 10 ^ k := by
          rw [Nat.div_lt_iff_lt_mul (by norm_num : (0 : ℕ) < 10)]
          calc n + 1 < 10 ^ (k + 1) := hk
          _ = 10 ^ k * 10 := pow_succ 10 k
        exact Nat.succ_le_succ (ih _ _ h1 h2)

theorem natDigitsAux_len_ge : ∀ f n k : ℕ, n ≤ f → 10 ^ k ≤ n →
    k < (natDigitsAux f n).length := by
  intro f
  induction f with
  | zero =>
    intro n k hn hk
    have hp : 0 < 10 ^ k := pow_pos (by norm_num) k
    omega
  | succ f ih =>
    intro n k hn hk
    match n with
    | 0 =>
      have hp : 0 < 10 ^ k := pow_pos (by norm_num) k
      omega
    | n + 1 =>
      match k with
      | 0 => simp [natDigitsAux]
      | k + 1 =>
        simp only [natDigitsAux, List.length_cons]
        have h1 : (n + 1) / 10 ≤ f := by
          have h10 : (n + 1) / 10 < n + 1 := Nat.div_lt_self (Nat.succ_pos n) (by norm_num)
          omega
        have h2 : 10 ^ k ≤ (n + 1) / 10 := by
          rw [Nat.le_div_iff_mul_le (by norm_num : (0 : ℕ) < 10)]
          calc 10 ^ k * 10 = 10 ^ (k + 1) := (pow_succ 10 k).symm
          _ ≤ n + 1 := hk
        exact Nat.succ_lt_succ (ih _ _ h1 h2)

theorem pyNatReprL_digits (n : ℕ) : (pyNatReprL n).all isDigitChar = true := by
  unfold pyNatReprL
  by_cases h : n = 0
  · subst h
    rfl
  · simp only [h, ite_false, List.all_eq_true]
    intro c hc
    rw [List.mem_map] at hc
    obtain ⟨d, hd, rfl⟩ := hc
    rw [List.mem_reverse] at hd
    exact isDigitChar_digitChar d (natDigitsAux_lt n n d hd)

theorem foldl_map_digitChar : ∀ (M : List ℕ) (a : ℕ), (∀ d ∈ M, d < 10) →
    (M.map digitChar).foldl (fun a c => 10 * a + charDigitVal c) a =
      a * 10 ^ M.length + valBE M := by
  intro M
  induction M with
  | nil =>
    intro a _
    simp [valBE]
  | cons d t ih =>
    intro a hlt
    simp only [List.map_cons, List.foldl_cons, valBE, List.length_cons]
    rw [charDigitVal_digitChar d (hlt d (by simp))]
    rw [ih (10 * a + d) (fun x hx => hlt x (by simp [hx]))]
    ring

theorem valBE_append (x y : List ℕ) :
    valBE (x ++ y) = valBE x * 10 ^ y.length + valBE y := by
  induction x with
  | nil => simp [valBE]
  | cons d t ih =>
    have e1 : valBE ((d :: t) ++ y) = d * 10 ^ (t ++ y).length + valBE (t ++ y) := rfl
    have e2 : valBE (d :: t) = d * 10 ^ t.length + valBE t := rfl
    rw [e1, e2, ih, List.length_append]
    ring

theorem valBE_reverse (L : List ℕ) : valBE L.reverse = valLE L := by
  induction L with
  | nil => rfl
  | cons d t ih =>
    simp only [List.reverse_cons, valBE_append, valBE, valLE, ih, List.length_cons,
      List.length_nil, pow_zero, pow_one]
    ring

theorem parseValBE_reprL (n : ℕ) : parseValBE (pyNatReprL n) = n := by
  unfold pyNatReprL parseValBE
  by_cases h : n = 0
  · subst h
    rfl
  · simp only [h, ite_false]
    rw [foldl_map_digitChar ((natDigitsAux n n).reverse) 0
      (fun d hd => natDigitsAux_lt n n d (List.mem_reverse.mp hd))]
    simp [valBE_reverse, natDigitsAux_val n n le_rfl]

theorem pyNatReprL_length_pos (n : ℕ) : 0 < (pyNatReprL n).length := by
  unfold pyNatReprL
  by_cases h : n = 0
  · simp [h]
  · simp only [h, ite_false, List.length_map, List.length_reverse]
    have h1 : (10 : ℕ) ^ 0 ≤ n := by
      simpa using Nat.one_le_iff_ne_zero.mpr h
    exact natDigitsAux_len_ge n n 0 le_rfl h1

theorem pyNatReprL_ne_nil (n : ℕ) : pyNatReprL n ≠ [] :=
  List.length_pos.mp (pyNatReprL_length_pos n)

theorem pyNatReprL_length_le (n k : ℕ) (h : n < 10 ^ k) (hk : 1 ≤ k) :
    (pyNatReprL n).length ≤ k := by
  unfold pyNatReprL
  by_cases h0 : n = 0
  · simp [h0]
    omega
  · simp only [h0, ite_false, List.length_map, List.length_reverse]
    exact natDigitsAux_len_le n n k le_rfl h

theorem pyNatReprL_length_eq (n k : ℕ) (h1 : 10 ^ k ≤ n) (h2 : n < 10 ^ (k + 1)) :
    (pyNatReprL n).length = k + 1 := by
  have hpos : n ≠ 0 := by
    have hp : 0 < 10 ^ k := pow_pos (by norm_num) k
    omega
  unfold pyNatReprL
  simp only [hpos, ite_false, List.length_map, List.length_reverse]
  have a := natDigitsAux_len_le n n (k + 1) le_rfl h2
  have b := natDigitsAux_len_ge n n k le_rfl h1
  omega

theorem zfillL_length (k : ℕ) (s : List Char) :
    (zfillL k s).length = max k s.length := by
  simp only [zfillL, List.length_append, List.length_replicate]
  omega

theorem zfillL_all (k : ℕ) (s : List Char) (h : s.all isDigitChar = true) :
    (zfillL k s).all isDigitChar = true := by
  simp only [zfillL, List.all_append, Bool.and_eq_true, List.all_eq_true]
  refine ⟨fun c hc => ?_, (List.all_eq_true).mp h⟩
  rw [List.eq_of_mem_replicate hc]
  rfl

theorem foldl_zero_replicate (j : ℕ) :
    (List.replicate j '0').foldl (fun a c => 10 * a + charDigitVal c) 0 = 0 := by
  induction j with
  | zero => rfl
  | succ j ih =>
    simpa [List.replicate_succ, List.foldl_cons, charDigitVal] using ih

theorem parseValBE_zfill (k : ℕ) (s : List Char) :
    parseValBE (zfillL k s) = parseValBE s := by
  unfold zfillL parseValBE
  rw [List.foldl_append, foldl_zero_replicate]

theorem pad2L_length (n : ℕ) (h : n < 100) : (pad2L n).length = 2 := by
  unfold pad2L
  rw [zfillL_length]
  have h1 := pyNatReprL_length_le n 2 (by norm_num; omega) (by norm_num)
  omega

theorem pad3L_length (n : ℕ) (h : n < 1000) : (pad3L n).length = 3 := by
  unfold pad3L
  rw [zfillL_length]
  have h1 := pyNatReprL_length_le n 3 (by norm_num; omega) (by norm_num)
  omega

theorem pad2L_digits (n : ℕ) : (pad2L n).all isDigitChar = true :=
  zfillL_all 2 _ (pyNatReprL_digits n)

theorem pad3L_digits (n : ℕ) : (pad3L n).all isDigitChar = true :=
  zfillL_all 3 _ (pyNatReprL_digits n)

theorem parseValBE_pad2L (n : ℕ) : parseValBE (pad2L n) = n := by
  unfold pad2L
  rw [parseValBE_zfill, parseValBE_reprL]

theorem parseValBE_pad3L (n : ℕ) : parseValBE (pad3L n) = n := by
  unfold pad3L
  rw [parseValBE_zfill, parseValBE_reprL]

/-! ## Greedy digit scanning -/

theorem takeDigitsMax_exact : ∀ (a b : List Char), a.all isDigitChar = true →
    takeDigitsMax a.length (a ++ b) = (a, b) := by
  intro a
  induction a with
  | nil =>
    intro b _
    rfl
  | cons c t ih =>
    intro b h
    rw [List.all_cons, Bool.and_eq_true] at h
    simp only [List.length_cons, List.cons_append, List.append_eq, takeDigitsMax, h.1,
      ite_true, ih b h.2]

theorem takeDigitsMax_stop : ∀ (a : List Char) (k : ℕ) (c : Char) (b : List Char),
    a.all isDigitChar = true → a.length ≤ k → isDigitChar c = false →
    takeDigitsMax k (a ++ c :: b) = (a, c :: b) := by
  intro a
  induction a with
  | nil =>
    intro k c b _ _ hc
    match k with
    | 0 => rfl
    | k + 1 => simp [takeDigitsMax, hc]
  | cons d t ih =>
    intro k c b h hk hc
    rw [List.all_cons, Bool.and_eq_true] at h
    match k with
    | 0 => simp at hk
    | k + 1 =>
      simp only [List.cons_append, List.append_eq, takeDigitsMax, h.1, ite_true,
        ih k c b h.2 (by simpa using hk) hc]

/-! ## strptime on composed date/time strings -/

theorem strptime_compose (y d h mi s : ℕ)
    (hy1 : 1000 ≤ y) (hy2 : y < 10000)
    (hd1 : 1 ≤ d) (hd2 : d ≤ daysInYear y)
    (hh : h ≤ 23) (hmi : mi ≤ 59) (hs : s ≤ 59) :
    strptimeYjHMS
        (pyNatReprL y ++ (pad3L d ++ (' ' :: (pad2L h ++ (pad2L mi ++ pad2L s))))) =
      some ⟨y, d, h, mi, s⟩ := by
  have hd3 : d < 1000 := by
    unfold daysInYear at hd2
    split at hd2 <;> omega
  have hYlen : (pyNatReprL y).length = 4 :=
    pyNatReprL_length_eq y 3 (by norm_num; omega) (by norm_num; omega)
  have step1 : takeDigitsMax 4
      (pyNatReprL y ++ (pad3L d ++ (' ' :: (pad2L h ++ (pad2L mi ++ pad2L s))))) =
      (pyNatReprL y, pad3L d ++ (' ' :: (pad2L h ++ (pad2L mi ++ pad2L s)))) := by
    rw [← hYlen]
    exact takeDigitsMax_exact _ _ (pyNatReprL_digits y)
  have hplen : (pad3L d).length = 3 := pad3L_length d hd3
  have step2 : takeDigitsMax 3 (pad3L d ++ (' ' :: (pad2L h ++ (pad2L mi ++ pad2L s)))) =
      (pad3L d, ' ' :: (pad2L h ++ (pad2L mi ++ pad2L s))) := by
    rw [← hplen]
    exact takeDigitsMax_exact _ _ (pad3L_digits d)
  have hhlen : (pad2L h).length = 2 := pad2L_length h (by omega)
  have step3 : takeDigitsMax 2 (pad2L h ++ (pad2L mi ++ pad2L s)) =
      (pad2L h, pad2L mi ++ pad2L s) := by
    rw [← hhlen]
    exact takeDigitsMax_exact _ _ (pad2L_digits h)
  have hmlen : (pad2L mi).length = 2 := pad2L_length mi (by omega)
  have step4 : takeDigitsMax 2 (pad2L mi ++ pad2L s) = (pad2L mi, pad2L s) := by
    rw [← hmlen]
    exact takeDigitsMax_exact _ _ (pad2L_digits mi)
  have hslen : (pad2L s).length = 2 := pad2L_length s (by omega)
  have step5 : takeDigitsMax 2 (pad2L s) = (pad2L s, []) := by
    conv_lhs => rw [← List.append_nil (pad2L s), ← hslen]
    exact takeDigitsMax_exact _ _ (pad2L_digits s)
  have hpne : pad3L d ≠ [] := by
    intro hcon
    rw [hcon] at hplen
    simp at hplen
  have hhne : pad2L h ≠ [] := by
    intro hcon
    rw [hcon] at hhlen
    simp at hhlen
  have hmne : pad2L mi ≠ [] := by
    intro hcon
    rw [hcon] at hmlen
    simp at hmlen
  have hsne : pad2L s ≠ [] := by
    intro hcon
    rw [hcon] at hslen
    simp at hslen
  simp [strptimeYjHMS, step1, step2, step3, step4, step5, hYlen, hpne, hhne, hmne, hsne,
    parseValBE_reprL, parseValBE_pad3L, parseValBE_pad2L,
    show 1 ≤ y by omega, hd1, hd2, hh, hmi, hs]

theorem parseDigits_pad3L (n : ℕ) (h : n < 1000) : parseDigits (pad3L n) = some n := by
  unfold parseDigits
  have hne : pad3L n ≠ [] := by
    have hl := pad3L_length n h
    intro hcon
    rw [hcon] at hl
    simp at hl
  simp [hne, pad3L_digits n, parseValBE_pad3L]

/-! ## Global-attribute rewriting -/

/-- Full characterization of `compliance_global` on a catalog whose legacy
date and time attributes are well-formed: Image_Date renders as a 3-digit
years-since-1900 part followed by a 3-digit day-of-year, Image_Time zfills to
HHMMSS. -/
theorem compliance_global_spec (libv : String) (g : AttrMap) (y3 d h mi s : ℕ)
    (dv tv : AttrValue)
    (hy1 : 100 ≤ y3) (hy2 : y3 ≤ 999)
    (hd1 : 1 ≤ d) (hd2 : d ≤ daysInYear (y3 + 1900))
    (hh : h ≤ 23) (hmi : mi ≤ 59) (hs : s ≤ 59)
    (hgd : alookup g IMAGE_DATE_ATTR_NAME = some dv)
    (hgt : alookup g IMAGE_TIME_ATTR_NAME = some tv)
    (hdv : (pyStr dv).data = pad3L y3 ++ pad3L d)
    (htv : zfillL 6 (pyStr tv).data = pad2L h ++ (pad2L mi ++ pad2L s)) :
    compliance_global libv g =
      .ok (aset (aset (aerase (aerase g IMAGE_DATE_ATTR_NAME) IMAGE_TIME_ATTR_NAME)
        IMAGE_DATETIME_ATTR_NAME (.str (isoUTC (y3 + 1900) d h mi s)))
        LIB_VERSION_ATTR_NAME (.str libv)) := by
  have hd300 : d < 1000 := by
    unfold daysInYear at hd2
    split at hd2 <;> omega
  have hgt2 : alookup (aerase g IMAGE_DATE_ATTR_NAME) IMAGE_TIME_ATTR_NAME = some tv := by
    rw [alookup_aerase_ne _ _ _ (by decide), hgt]
  have h3 := pad3L_length y3 (by omega)
  have h3d := pad3L_length d hd300
  have htake : ((pyStr dv).data.take 3) = pad3L y3 := by
    rw [hdv, ← h3]
    exact List.take_left _ _
  have hparse : parseDigits ((pyStr dv).data.take 3) = some y3 := by
    rw [htake]
    exact parseDigits_pad3L y3 (by omega)
  have hdrop : (((pyStr dv).data.drop 3).take 3) = pad3L d := by
    rw [hdv, ← h3, List.drop_left, h3, ← h3d, List.take_length]
  have hstr : strptimeYjHMS (pyNatReprL (y3 + 1900) ++ ((pyStr dv).data.drop 3).take 3 ++
      [' '] ++ zfillL 6 (pyStr tv).data) = some ⟨y3 + 1900, d, h, mi, s⟩ := by
    have hcomp : pyNatReprL (y3 + 1900) ++ ((pyStr dv).data.drop 3).take 3 ++ [' '] ++
        zfillL 6 (pyStr tv).data =
        pyNatReprL (y3 + 1900) ++ (pad3L d ++ (' ' :: (pad2L h ++ (pad2L mi ++ pad2L s)))) := by
      rw [hdrop, htv]
      simp [List.append_assoc]
    rw [hcomp]
    exact strptime_compose (y3 + 1900) d h mi s (by omega) (by omega) hd1 hd2 hh hmi hs
  simp only [compliance_global, hgd, hgt2, hparse, hstr]
  rfl

/-- Whenever the global rewriting succeeds — however the date string was
shaped — the two legacy fields are gone from its result. -/
theorem compliance_global_erases (libv : String) (g g' : AttrMap)
    (h : compliance_global libv g = .ok g') :
    alookup g' IMAGE_DATE_ATTR_NAME = none ∧ alookup g' IMAGE_TIME_ATTR_NAME = none := by
  unfold compliance_global at h
  split at h
  · cases h
  · split at h
    · cases h
    · split at h
      · cases h
      · split at h
        · cases h
        · cases h
          constructor
          · rw [alookup_aset_ne _ _ _ _ (by decide), alookup_aset_ne _ _ _ _ (by decide),
              alookup_aerase_ne _ _ _ (by decide), alookup_aerase_self]
          · rw [alookup_aset_ne _ _ _ _ (by decide), alookup_aset_ne _ _ _ _ (by decide),
              alookup_aerase_self]

/-! ## Per-variable cleanup: preservation lemmas -/

theorem alookup_convertAttrs (m : AttrMap) (k : String) :
    alookup (convertAttrs m) k = (alookup m k).map convVal := by
  induction m with
  | nil => rfl
  | cons p t ih =>
    cases p with
    | mk k0 v0 =>
      by_cases h : k0 = k
      · simp [convertAttrs, List.map_cons, alookup, h]
      · simp only [convertAttrs, List.map_cons] at ih ⊢
        simp [alookup, h, ih]

theorem convVal_num (x : ℚ) : convVal (.num x) = .num x := by
  simp [convVal]

theorem convVal_numList (l : List ℚ) : convVal (.numList l) = .numList l := by
  simp [convVal]

theorem alookup_unitsNormalize (shape : List ℕ) (m : AttrMap) (k : String)
    (h : k ≠ UNITS_ATTR_NAME) :
    alookup (unitsNormalize shape m) k = alookup m k := by
  unfold unitsNormalize
  split
  · split
    · split
      · rw [alookup_aset_ne _ _ _ _ h]
      · rw [alookup_aerase_ne _ _ _ h]
    · rfl
  · rfl

theorem alookup_longNameFold_ne (name : String) (L : List LongNameEntry)
    (m : AttrMap) (k : String) (h : k ≠ LONG_NAME_ATTR_NAME) :
    alookup (L.foldl (fun a e =>
      match longNameOf e name with
      | some v => aset a LONG_NAME_ATTR_NAME (.str v)
      | none => a) m) k = alookup m k := by
  induction L generalizing m with
  | nil => rfl
  | cons e t ih =>
    rw [List.foldl_cons, ih]
    cases he : longNameOf e name
    · simp [he]
    · simp [he, alookup_aset_ne _ _ _ _ h]

theorem alookup_addLongName_ne (name : String) (m : AttrMap) (k : String)
    (h : k ≠ LONG_NAME_ATTR_NAME) :
    alookup (addLongName name m) k = alookup m k :=
  alookup_longNameFold_ne name LONG_NAME_MAP m k h

theorem alookup_longNameFold (name : String) (L : List LongNameEntry) (m : AttrMap) :
    alookup (L.foldl (fun a e =>
      match longNameOf e name with
      | some v => aset a LONG_NAME_ATTR_NAME (.str v)
      | none => a) m) LONG_NAME_ATTR_NAME =
      match lastLongName name L with
      | some v => some (.str v)
      | none => alookup m LONG_NAME_ATTR_NAME := by
  induction L generalizing m with
  | nil => rfl
  | cons e t ih =>
    rw [List.foldl_cons, ih]
    cases hl : lastLongName name t with
    | some v => simp [lastLongName, hl]
    | none =>
      simp only [lastLongName, hl]
      cases he : longNameOf e name
      · simp [he]
      · simp [he, alookup_aset_self]

theorem alookup_rangeFoldF (name : String) (L : List (EnrichPat × List ℚ))
    (m : AttrMap) :
    (alookup (L.foldl (fun a e =>
        if enrichMatches e.1 name ∧ ¬(false : Bool) then setRangeAttrs a e.2 else a) m)
        VALID_RANGE_ATTR_NAME =
      match lastRangeRule name L with
      | some rng => some (.numList rng)
      | none => alookup m VALID_RANGE_ATTR_NAME) ∧
    (alookup (L.foldl (fun a e =>
        if enrichMatches e.1 name ∧ ¬(false : Bool) then setRangeAttrs a e.2 else a) m)
        VALID_MIN_ATTR_NAME =
      match lastRangeRule name L with
      | some rng => some (.num rng.headI)
      | none => alookup m VALID_MIN_ATTR_NAME) ∧
    (alookup (L.foldl (fun a e =>
        if enrichMatches e.1 name ∧ ¬(false : Bool) then setRangeAttrs a e.2 else a) m)
        VALID_MAX_ATTR_NAME =
      match lastRangeRule name L with
      | some rng => some (.num rng.getLastI)
      | none => alookup m VALID_MAX_ATTR_NAME) := by
  induction L generalizing m with
  | nil => exact ⟨rfl, rfl, rfl⟩
  | cons e t ih =>
    have ihs := ih (if enrichMatches e.1 name ∧ ¬(false : Bool) then
      setRangeAttrs m e.2 else m)
    cases hl : lastRangeRule name t with
    | some v =>
      have hcons : lastRangeRule name (e :: t) = some v := by
        simp [lastRangeRule, hl]
      refine ⟨?_, ?_, ?_⟩
      · simp only [List.foldl_cons]
        rw [ihs.1, hl, hcons]
      · simp only [List.foldl_cons]
        rw [ihs.2.1, hl, hcons]
      · simp only [List.foldl_cons]
        rw [ihs.2.2, hl, hcons]
    | none =>
      by_cases hm : enrichMatches e.1 name
      · have hcons : lastRangeRule name (e :: t) = some e.2 := by
          simp [lastRangeRule, hl, hm]
        have hstep : (if enrichMatches e.1 name ∧ ¬(false : Bool) then
            setRangeAttrs m e.2 else m) = setRangeAttrs m e.2 := by
          simp [hm]
        refine ⟨?_, ?_, ?_⟩
        · simp only [List.foldl_cons]
          rw [ihs.1, hl, hcons, hstep]
          unfold setRangeAttrs
          rw [alookup_aset_ne _ _ _ _ (by decide), alookup_aset_ne _ _ _ _ (by decide),
            alookup_aset_self]
        · simp only [List.foldl_cons]
          rw [ihs.2.1, hl, hcons, hstep]
          unfold setRangeAttrs
          rw [alookup_aset_ne _ _ _ _ (by decide), alookup_aset_self]
        · simp only [List.foldl_cons]
          rw [ihs.2.2, hl, hcons, hstep]
          unfold setRangeAttrs
          rw [alookup_aset_self]
      · have hcons : lastRangeRule name (e :: t) = none := by
          simp [lastRangeRule, hl, hm]
        have hstep : (if enrichMatches e.1 name ∧ ¬(false : Bool) then
            setRangeAttrs m e.2 else m) = m := by
          simp [hm]
        refine ⟨?_, ?_, ?_⟩
        · simp only [List.foldl_cons]
          rw [ihs.1, hl, hcons, hstep]
        · simp only [List.foldl_cons]
          rw [ihs.2.1, hl, hcons, hstep]
        · simp only [List.foldl_cons]
          rw [ihs.2.2, hl, hcons, hstep]

theorem alookup_flagFoldF (name : String)
    (L : List (EnrichPat × List ℚ × List String)) (m : AttrMap) :
    (alookup (L.foldl (fun a e =>
        if enrichMatches e.1 name ∧ ¬(false : Bool) then
          aset (aset a FLAG_VALS_ATTR_NAME (.numList e.2.1))
            FLAG_MEANINGS_ATTR_NAME (.strList e.2.2)
        else a) m) FLAG_VALS_ATTR_NAME =
      match lastFlagRule name L with
      | some fv => some (.numList fv.1)
      | none => alookup m FLAG_VALS_ATTR_NAME) ∧
    (alookup (L.foldl (fun a e =>
        if enrichMatches e.1 name ∧ ¬(false : Bool) then
          aset (aset a FLAG_VALS_ATTR_NAME (.numList e.2.1))
            FLAG_MEANINGS_ATTR_NAME (.strList e.2.2)
        else a) m) FLAG_MEANINGS_ATTR_NAME =
      match lastFlagRule name L with
      | some fv => some (.strList fv.2)
      | none => alookup m FLAG_MEANINGS_ATTR_NAME) := by
  induction L generalizing m with
  | nil => exact ⟨rfl, rfl⟩
  | cons e t ih =>
    have ihs := ih (if enrichMatches e.1 name ∧ ¬(false : Bool) then
      aset (aset m FLAG_VALS_ATTR_NAME (.numList e.2.1))
        FLAG_MEANINGS_ATTR_NAME (.strList e.2.2) else m)
    cases hl : lastFlagRule name t with
    | some v =>
      have hcons : lastFlagRule name (e :: t) = some v := by
        simp [lastFlagRule, hl]
      refine ⟨?_, ?_⟩
      · simp only [List.foldl_cons]
        rw [ihs.1, hl, hcons]
      · simp only [List.foldl_cons]
        rw [ihs.2, hl, hcons]
    | none =>
      by_cases hm : enrichMatches e.1 name
      · have hcons : lastFlagRule name (e :: t) = some e.2 := by
          simp [lastFlagRule, hl, hm]
        have hstep : (if enrichMatches e.1 name ∧ ¬(false : Bool) then
            aset (aset m FLAG_VALS_ATTR_NAME (.numList e.2.1))
              FLAG_MEANINGS_ATTR_NAME (.strList e.2.2) else m) =
            aset (aset m FLAG_VALS_ATTR_NAME (.numList e.2.1))
              FLAG_MEANINGS_ATTR_NAME (.strList e.2.2) := by
          simp [hm]
        refine ⟨?_, ?_⟩
        · simp only [List.foldl_cons]
          rw [ihs.1, hl, hcons, hstep]
          rw [alookup_aset_ne _ _ _ _ (by decide), alookup_aset_self]
        · simp only [List.foldl_cons]
          rw [ihs.2, hl, hcons, hstep]
          rw [alookup_aset_self]
      · have hcons : lastFlagRule name (e :: t) = none := by
          simp [lastFlagRule, hl, hm]
        have hstep : (if enrichMatches e.1 name ∧ ¬(false : Bool) then
            aset (aset m FLAG_VALS_ATTR_NAME (.numList e.2.1))
              FLAG_MEANINGS_ATTR_NAME (.strList e.2.2) else m) = m := by
          simp [hm]
        refine ⟨?_, ?_⟩
        · simp only [List.foldl_cons]
          rw [ihs.1, hl, hcons, hstep]
        · simp only [List.foldl_cons]
          rw [ihs.2, hl, hcons, hstep]

theorem alookup_setRangeAttrs_ne (m : AttrMap) (rng : List ℚ) (k : String)
    (h1 : k ≠ VALID_RANGE_ATTR_NAME) (h2 : k ≠ VALID_MIN_ATTR_NAME)
    (h3 : k ≠ VALID_MAX_ATTR_NAME) :
    alookup (setRangeAttrs m rng) k = alookup m k := by
  unfold setRangeAttrs
  rw [alookup_aset_ne _ _ _ _ h3, alookup_aset_ne _ _ _ _ h2, alookup_aset_ne _ _ _ _ h1]

theorem alookup_rangeFold_ne (name : String) (didSet : Bool)
    (L : List (EnrichPat × List ℚ)) (m : AttrMap) (k : String)
    (h1 : k ≠ VALID_RANGE_ATTR_NAME) (h2 : k ≠ VALID_MIN_ATTR_NAME)
    (h3 : k ≠ VALID_MAX_ATTR_NAME) :
    alookup (L.foldl (fun a e =>
      if enrichMatches e.1 name ∧ ¬didSet then setRangeAttrs a e.2 else a) m) k =
      alookup m k := by
  induction L generalizing m with
  | nil => rfl
  | cons e t ih =>
    rw [List.foldl_cons, ih]
    split
    · exact alookup_setRangeAttrs_ne _ _ _ h1 h2 h3
    · rfl

theorem alookup_addRanges_ne (name : String) (didSet : Bool) (m : AttrMap)
    (k : String) (h1 : k ≠ VALID_RANGE_ATTR_NAME) (h2 : k ≠ VALID_MIN_ATTR_NAME)
    (h3 : k ≠ VALID_MAX_ATTR_NAME) :
    alookup (addRanges name didSet m) k = alookup m k :=
  alookup_rangeFold_ne name didSet RANGE_LIMS_MAP m k h1 h2 h3

theorem alookup_flagFold_ne (name : String) (didSet : Bool)
    (L : List (EnrichPat × List ℚ × List String)) (m : AttrMap) (k : String)
    (h1 : k ≠ FLAG_VALS_ATTR_NAME) (h2 : k ≠ FLAG_MEANINGS_ATTR_NAME) :
    alookup (L.foldl (fun a e =>
      if enrichMatches e.1 name ∧ ¬didSet then
        aset (aset a FLAG_VALS_ATTR_NAME (.numList e.2.1))
          FLAG_MEANINGS_ATTR_NAME (.strList e.2.2)
      else a) m) k = alookup m k := by
  induction L generalizing m with
  | nil => rfl
  | cons e t ih =>
    rw [List.foldl_cons, ih]
    split
    · rw [alookup_aset_ne _ _ _ _ h2, alookup_aset_ne _ _ _ _ h1]
    · rfl

theorem alookup_addFlags_ne (name : String) (didSet : Bool) (m : AttrMap)
    (k : String) (h1 : k ≠ FLAG_VALS_ATTR_NAME) (h2 : k ≠ FLAG_MEANINGS_ATTR_NAME) :
    alookup (addFlags name didSet m) k = alookup m k :=
  alookup_flagFold_ne name didSet FLAG_INFO_MAP m k h1 h2

theorem addRanges_didSet (name : String) (m : AttrMap) :
    addRanges name true m = m := by
  simp [addRanges]

theorem addFlags_didSet (name : String) (m : AttrMap) :
    addFlags name true m = m := by
  simp [addFlags]

/-! ## Scale pruning -/

theorem scalePrune_unscaled (attrs : AttrMap)
    (hs : alookup attrs SCALE_FACTOR_ATTR_NAME = some (.num 1))
    (ho : alookup attrs ADD_OFFSET_ATTR_NAME = some (.num 0))
    (hm : (alookup attrs SCALING_METHOD_ATTR_NAME).isSome) :
    scalePrune attrs = .ok
      (aerase (aerase (aerase attrs SCALE_FACTOR_ATTR_NAME) ADD_OFFSET_ATTR_NAME)
        SCALING_METHOD_ATTR_NAME, false) := by
  have hc2 : (alookup (aerase (aerase attrs SCALE_FACTOR_ATTR_NAME) ADD_OFFSET_ATTR_NAME)
      SCALING_METHOD_ATTR_NAME).isSome = true := by
    rw [alookup_aerase_ne _ _ _ (by decide), alookup_aerase_ne _ _ _ (by decide)]
    exact hm
  simp only [scalePrune, acontains, hs, ho, hc2]
  simp [pyEqNum]

theorem scalePrune_packed (attrs : AttrMap) (sf ao f : ℚ)
    (hs : alookup attrs SCALE_FACTOR_ATTR_NAME = some (.num sf))
    (ho : alookup attrs ADD_OFFSET_ATTR_NAME = some (.num ao))
    (hne : ¬(sf = 1 ∧ ao = 0))
    (hf : alookup attrs FILL_VALUE_KEY = some (.num f)) :
    scalePrune attrs = .ok
      (aset (aset (aset attrs VALID_RANGE_ATTR_NAME
          (.numList [if f ≤ 0 then f + 1 else -32768, if f ≤ 0 then 32767 else f - 1]))
        VALID_MIN_ATTR_NAME (.num (if f ≤ 0 then f + 1 else -32768)))
        VALID_MAX_ATTR_NAME (.num (if f ≤ 0 then 32767 else f - 1)), true) := by
  have hcond : ¬(pyEqNum (some (AttrValue.num sf)) 1 = true ∧
      pyEqNum (some (AttrValue.num ao)) 0 = true) := by
    simp only [pyEqNum, decide_eq_true_eq]
    exact hne
  simp only [scalePrune, hs, ho, hf]
  rw [if_neg hcond]
  simp

/-- C3: if scale_factor is exactly 1.0 and add_offset exactly 0.0, the
rewriter deletes scale_factor, add_offset and scaling_method; otherwise, when
both scaling attributes are present, it derives the signed 16-bit valid range
from the fill value ([-32768,32767] with the minimum raised to fill+1 when
fill ≤ 0, else the maximum lowered to fill-1), records it in valid_range /
valid_min / valid_max, and (via did_set_ranges) the later range and flag
enrichment rules leave those attributes untouched, whatever the variable's
name. -/
theorem C3_scale_pruning (name : String) (shape : List ℕ) (attrs : AttrMap) :
    ((alookup attrs SCALE_FACTOR_ATTR_NAME = some (.num 1) ∧
      alookup attrs ADD_OFFSET_ATTR_NAME = some (.num 0) ∧
      (alookup attrs SCALING_METHOD_ATTR_NAME).isSome) →
      ∃ out, cleanup_variable name shape attrs = .ok out ∧
        alookup out SCALE_FACTOR_ATTR_NAME = none ∧
        alookup out ADD_OFFSET_ATTR_NAME = none ∧
        alookup out SCALING_METHOD_ATTR_NAME = none) ∧
    (∀ sf ao f : ℚ, alookup attrs SCALE_FACTOR_ATTR_NAME = some (.num sf) →
      alookup attrs ADD_OFFSET_ATTR_NAME = some (.num ao) → ¬(sf = 1 ∧ ao = 0) →
      alookup attrs FILL_VALUE_KEY = some (.num f) →
      ∃ out, cleanup_variable name shape attrs = .ok out ∧
        alookup out VALID_RANGE_ATTR_NAME =
          some (.numList [if f ≤ 0 then f + 1 else -32768,
            if f ≤ 0 then 32767 else f - 1]) ∧
        alookup out VALID_MIN_ATTR_NAME = some (.num (if f ≤ 0 then f + 1 else -32768)) ∧
        alookup out VALID_MAX_ATTR_NAME = some (.num (if f ≤ 0 then 32767 else f - 1))) := by
  constructor
  · rintro ⟨hs, ho, hm⟩
    have hsp := scalePrune_unscaled attrs hs ho hm
    have hclean : cleanup_variable name shape attrs = .ok
        (addFlags name false (addRanges name false (addLongName name (convertAttrs
          (unitsNormalize shape (aerase (aerase (aerase attrs SCALE_FACTOR_ATTR_NAME)
            ADD_OFFSET_ATTR_NAME) SCALING_METHOD_ATTR_NAME)))))) := by
      simp only [cleanup_variable, hsp]
      rfl
    refine ⟨_, hclean, ?_, ?_, ?_⟩
    · rw [alookup_addFlags_ne _ _ _ _ (by decide) (by decide),
        alookup_addRanges_ne _ _ _ _ (by decide) (by decide) (by decide),
        alookup_addLongName_ne _ _ _ (by decide),
        alookup_convertAttrs, alookup_unitsNormalize _ _ _ (by decide),
        alookup_aerase_ne _ _ _ (by decide), alookup_aerase_ne _ _ _ (by decide),
        alookup_aerase_self]
      rfl
    · rw [alookup_addFlags_ne _ _ _ _ (by decide) (by decide),
        alookup_addRanges_ne _ _ _ _ (by decide) (by decide) (by decide),
        alookup_addLongName_ne _ _ _ (by decide),
        alookup_convertAttrs, alookup_unitsNormalize _ _ _ (by decide),
        alookup_aerase_ne _ _ _ (by decide), alookup_aerase_self]
      rfl
    · rw [alookup_addFlags_ne _ _ _ _ (by decide) (by decide),
        alookup_addRanges_ne _ _ _ _ (by decide) (by decide) (by decide),
        alookup_addLongName_ne _ _ _ (by decide),
        alookup_convertAttrs, alookup_unitsNormalize _ _ _ (by decide),
        alookup_aerase_self]
      rfl
  · intro sf ao f hs ho hne hf
    have hsp := scalePrune_packed attrs sf ao f hs ho hne hf
    have hclean : cleanup_variable name shape attrs = .ok
        (addFlags name true (addRanges name true (addLongName name (convertAttrs
          (unitsNormalize shape (aset (aset (aset attrs VALID_RANGE_ATTR_NAME
            (.numList [if f ≤ 0 then f + 1 else -32768, if f ≤ 0 then 32767 else f - 1]))
          VALID_MIN_ATTR_NAME (.num (if f ≤ 0 then f + 1 else -32768)))
          VALID_MAX_ATTR_NAME (.num (if f ≤ 0 then 32767 else f - 1)))))))) := by
      simp only [cleanup_variable, hsp]
      rfl
    rw [addFlags_didSet, addRanges_didSet] at hclean
    refine ⟨_, hclean, ?_, ?_, ?_⟩
    · rw [alookup_addLongName_ne _ _ _ (by decide),
        alookup_convertAttrs, alookup_unitsNormalize _ _ _ (by decide),
        alookup_aset_ne _ _ _ _ (by decide), alookup_aset_ne _ _ _ _ (by decide),
        alookup_aset_self]
      simp [convVal_numList]
    · rw [alookup_addLongName_ne _ _ _ (by decide),
        alookup_convertAttrs, alookup_unitsNormalize _ _ _ (by decide),
        alookup_aset_ne _ _ _ _ (by decide), alookup_aset_self]
      simp [convVal_num]
    · rw [alookup_addLongName_ne _ _ _ (by decide),
        alookup_convertAttrs, alookup_unitsNormalize _ _ _ (by decide),
        alookup_aset_self]
      simp [convVal_num]

/-- Witness for C3 at the claim's own example inputs. -/
theorem C3_scale_pruning_witness :
    (∃ out, cleanup_variable "v1" [2, 3] attrsUnscaled = .ok out ∧
      alookup out SCALE_FACTOR_ATTR_NAME = none ∧
      alookup out ADD_OFFSET_ATTR_NAME = none ∧
      alookup out SCALING_METHOD_ATTR_NAME = none) ∧
    (∃ out, cleanup_variable "v2" [2, 3] attrsPacked = .ok out ∧
      alookup out VALID_RANGE_ATTR_NAME = some (.numList [-32767, 32767]) ∧
      alookup out VALID_MIN_ATTR_NAME = some (.num (-32767)) ∧
      alookup out VALID_MAX_ATTR_NAME = some (.num 32767)) := by
  constructor
  · exact (C3_scale_pruning "v1" [2, 3] attrsUnscaled).1 ⟨by rfl, by rfl, by decide⟩
  · obtain ⟨out, h1, h2, h3, h4⟩ := (C3_scale_pruning "v2" [2, 3] attrsPacked).2
      (1 / 100) 0 (-32768) (by rfl) (by rfl) (by norm_num) (by rfl)
    have hle : ((-32768 : ℚ) ≤ 0) := by norm_num
    refine ⟨out, h1, ?_, ?_, ?_⟩
    · rw [h2, if_pos hle, if_pos hle]
      norm_num
    · rw [h3, if_pos hle]
      norm_num
    · rw [h4, if_pos hle]

/-- C1: for every global attribute map whose Image_Date value renders as a
3-digit years-since-1900 part concatenated with a 3-digit day-of-year, and
whose Image_Time value zfills to HHMMSS, the Metadata Rewriter removes both
legacy attributes and adds Image_Date_Time holding the ISO-8601 UTC string
for that date and time; the witness instantiates the claim's example
Image_Date="115032", Image_Time="83000" ↦ "2015-02-01T08:30:00Z". -/
theorem C1_image_date_time (libv : String) (g : AttrMap) (y3 d h mi s : ℕ)
    (dv tv : AttrValue)
    (hy1 : 100 ≤ y3) (hy2 : y3 ≤ 999)
    (hd1 : 1 ≤ d) (hd2 : d ≤ daysInYear (y3 + 1900))
    (hh : h ≤ 23) (hmi : mi ≤ 59) (hs : s ≤ 59)
    (hgd : alookup g IMAGE_DATE_ATTR_NAME = some dv)
    (hgt : alookup g IMAGE_TIME_ATTR_NAME = some tv)
    (hdv : (pyStr dv).data = pad3L y3 ++ pad3L d)
    (htv : zfillL 6 (pyStr tv).data = pad2L h ++ (pad2L mi ++ pad2L s)) :
    ∃ g', compliance_global libv g = .ok g' ∧
      alookup g' IMAGE_DATE_ATTR_NAME = none ∧
      alookup g' IMAGE_TIME_ATTR_NAME = none ∧
      alookup g' IMAGE_DATETIME_ATTR_NAME =
        some (.str (isoUTC (y3 + 1900) d h mi s)) := by
  refine ⟨_, compliance_global_spec libv g y3 d h mi s dv tv hy1 hy2 hd1 hd2 hh hmi hs
    hgd hgt hdv htv, ?_, ?_, ?_⟩
  · rw [alookup_aset_ne _ _ _ _ (by decide), alookup_aset_ne _ _ _ _ (by decide),
      alookup_aerase_ne _ _ _ (by decide), alookup_aerase_self]
  · rw [alookup_aset_ne _ _ _ _ (by decide), alookup_aset_ne _ _ _ _ (by decide),
      alookup_aerase_self]
  · rw [alookup_aset_ne _ _ _ _ (by decide), alookup_aset_self]

/-- Witness for C1 at the claim's example input. -/
theorem C1_image_date_time_witness :
    ∃ g', compliance_global vStr sampleInfo.globalAttrs = .ok g' ∧
      alookup g' IMAGE_DATE_ATTR_NAME = none ∧
      alookup g' IMAGE_TIME_ATTR_NAME = none ∧
      alookup g' IMAGE_DATETIME_ATTR_NAME = some (.str "2015-02-01T08:30:00Z") := by
  have h := C1_image_date_time vStr sampleInfo.globalAttrs 115 32 8 30 0
    (.str "115032") (.str "83000") (by norm_num) (by norm_num) (by norm_num) (by decide)
    (by norm_num) (by norm_num) (by norm_num) (by rfl) (by rfl) (by decide) (by decide)
  have e : isoUTC (115 + 1900) 32 8 30 0 = "2015-02-01T08:30:00Z" := by decide
  rw [e] at h
  exact h

/-- C2 (code bug): on a file with regular 2-D variables of shapes (100,200)
and (100,201), the second variable is deferred to the irregular pass, matches
no special rule, and the temporary-dimension branch raises TypeError at
convert.py:239 (`"temp_dim_" + counter` concatenates str and int) instead of
synthesizing temp_dim_1 / temp_dim_2. -/
theorem C2_temp_dims_type_error :
    determine_dimensions mismatchFile = .error .typeError := by
  rfl

/-- C4 (code bug): when the hdf4 open of one file fails, the orchestrator
records code 2 but does not skip the rest of the per-file steps: it calls
compliance_cleanup(None), which raises an uncaught TypeError, so the whole
batch crashes and the remaining files (here a perfectly convertible one) are
never processed. -/
theorem C4_open_failure_crashes (libv : String) :
    hdf4_2_netcdf4 libv [badInput, goodInput] = .error .typeError := by
  rfl

/-- C5 counterexample: the variable name calibration_slope_degrade matches
both the calibration_slope pattern (earlier in the table) and the
calibration_slope_degrade pattern (later); the loop has no break, so the later
match overwrites the earlier one and the final long_name is the LAST match's
value, not the first match's. -/
theorem C5_counterexample :
    cleanup_variable "calibration_slope_degrade" [2, 3] [] =
      .ok [(LONG_NAME_ATTR_NAME, .str "calibration constant slope degrade")] ∧
    longNameOf (.plain "calibration_slope" "calibration constant slope")
        "calibration_slope_degrade" = some "calibration constant slope" ∧
    AttrValue.str "calibration constant slope degrade" ≠
      AttrValue.str "calibration constant slope" :=
  ⟨by rfl, by rfl, by decide⟩

/-- C5 amended: in each of the three enrichment rule categories — long-name
injection (addLongName / LONG_NAME_MAP), valid-range injection (addRanges /
RANGE_LIMS_MAP) and flag injection (addFlags / FLAG_INFO_MAP) — every pattern
of the category's table that matches the variable name fires, in
table-iteration order, each overwriting the previous result, so the final
attribute values are those of the LAST matching pattern in iteration order
(earlier matches never survive a later match); when no pattern of a category
matches, that category's attributes are untouched; and the range and flag
categories do not fire at all when scale pruning already set the range
(did_set_ranges true). -/
theorem C5_last_match_wins (name : String) (attrs : AttrMap) :
    (alookup (addLongName name attrs) LONG_NAME_ATTR_NAME =
      match lastLongName name LONG_NAME_MAP with
      | some v => some (.str v)
      | none => alookup attrs LONG_NAME_ATTR_NAME) ∧
    (alookup (addRanges name false attrs) VALID_RANGE_ATTR_NAME =
      match lastRangeRule name RANGE_LIMS_MAP with
      | some rng => some (.numList rng)
      | none => alookup attrs VALID_RANGE_ATTR_NAME) ∧
    (alookup (addRanges name false attrs) VALID_MIN_ATTR_NAME =
      match lastRangeRule name RANGE_LIMS_MAP with
      | some rng => some (.num rng.headI)
      | none => alookup attrs VALID_MIN_ATTR_NAME) ∧
    (alookup (addRanges name false attrs) VALID_MAX_ATTR_NAME =
      match lastRangeRule name RANGE_LIMS_MAP with
      | some rng => some (.num rng.getLastI)
      | none => alookup attrs VALID_MAX_ATTR_NAME) ∧
    (alookup (addFlags name false attrs) FLAG_VALS_ATTR_NAME =
      match lastFlagRule name FLAG_INFO_MAP with
      | some fv => some (.numList fv.1)
      | none => alookup attrs FLAG_VALS_ATTR_NAME) ∧
    (alookup (addFlags name false attrs) FLAG_MEANINGS_ATTR_NAME =
      match lastFlagRule name FLAG_INFO_MAP with
      | some fv => some (.strList fv.2)
      | none => alookup attrs FLAG_MEANINGS_ATTR_NAME) ∧
    (addRanges name true attrs = attrs ∧ addFlags name true attrs = attrs) := by
  refine ⟨alookup_longNameFold name LONG_NAME_MAP attrs, ?_, ?_, ?_, ?_, ?_,
    addRanges_didSet name attrs, addFlags_didSet name attrs⟩
  · exact (alookup_rangeFoldF name RANGE_LIMS_MAP attrs).1
  · exact (alookup_rangeFoldF name RANGE_LIMS_MAP attrs).2.1
  · exact (alookup_rangeFoldF name RANGE_LIMS_MAP attrs).2.2
  · exact (alookup_flagFoldF name FLAG_INFO_MAP attrs).1
  · exact (alookup_flagFoldF name FLAG_INFO_MAP attrs).2

/-- C6 counterexample: scan_line_time of raw shape (10,) in a file with no
prior lines dimension: its rule's wildcard axis registers the lines dimension
as None (netCDF unlimited), NOT as the raw-shape size 10. -/
theorem C6_counterexample :
    determine_dimensions scanOnlyFile =
      .ok ([(LINES_DIM_NAME, (none : Option ℕ))],
        [("scan_line_time", [LINES_DIM_NAME])]) ∧
    alookup [(LINES_DIM_NAME, (none : Option ℕ))] LINES_DIM_NAME ≠
      some (some 10) :=
  ⟨by rfl, by decide⟩

/-- C6 amended: when an irregular variable's rule holds the wildcard (None)
for an axis whose dimension name is not yet registered, the resolver registers
that dimension with the unlimited sentinel (None) — the size is NOT inherited
from the variable's raw shape, whatever that shape is. -/
theorem C6_wildcard_unlimited (g : AttrMap) (n : ℕ) (a : AttrMap) :
    determine_dimensions ⟨g, ["scan_line_time"], [("scan_line_time", ⟨[n], a⟩)]⟩ =
      .ok ([(LINES_DIM_NAME, (none : Option ℕ))],
        [("scan_line_time", [LINES_DIM_NAME])]) := by
  rfl

theorem except_bind_ok {α β : Type} (a : α) (k : α → Except PyError β) :
    (Except.ok a >>= k) = k a := rfl

theorem except_bind_error {α β : Type} (e : PyError) (k : α → Except PyError β) :
    ((Except.error e : Except PyError α) >>= k) = .error e := rfl

/-- One unfolding of the batch loop: a crashing file aborts the batch. -/
theorem convertLoop_cons_error (libv : String) (tbl : List SpecialRule) (code : ℕ)
    (f : InputFile) (rest : List InputFile) (e : PyError)
    (h : processFile libv tbl code f = .error e) :
    convertLoop libv tbl code (f :: rest) = .error e := by
  show (processFile libv tbl code f >>= fun c => convertLoop libv tbl c rest) = .error e
  rw [h, except_bind_error]

/-- One unfolding of the batch loop: a handled file updates the code and the
loop continues. -/
theorem convertLoop_cons_ok (libv : String) (tbl : List SpecialRule) (code : ℕ)
    (f : InputFile) (rest : List InputFile) (c : ℕ)
    (h : processFile libv tbl code f = .ok c) :
    convertLoop libv tbl code (f :: rest) = convertLoop libv tbl c rest := by
  show (processFile libv tbl code f >>= fun c => convertLoop libv tbl c rest) =
    convertLoop libv tbl c rest
  rw [h, except_bind_ok]

/-- C7: when an irregular variable's matching rule declares a concrete axis
size numerically different from the size already registered under the same
dimension name, the registration assertion fails — a dimension-conflict
(AssertionError) for that file; the orchestrator's `except Exception` around
the write step turns this into the per-file code 4 and the batch continues
with the remaining files exactly as before.  (With the repository's shipped
SPECIAL_VARIABLES table no pair of reachable rules conflicts, so the rule
table is a parameter here; the witness exercises a conflicting table.) -/
theorem C7_dimension_conflict :
    (∀ (dims : AList (Option ℕ)) (nm : String) (a b : ℕ),
      alookup dims nm = some (some b) → a ≠ b →
      registerAxis dims nm (some a) = .error .assertionError) ∧
    (∀ (libv : String) (tbl : List SpecialRule) (code : ℕ) (inp : InputFile)
      (rest : List InputFile) (fi fi2 : FileInfo),
      inp.openOk = some fi → compliance_cleanup libv fi = .ok fi2 →
      inp.outputExists = false → inp.sinkCreateFails = false →
      determine_dimensionsT tbl fi2 = .error .assertionError →
      convertLoop libv tbl code (inp :: rest) = convertLoop libv tbl 4 rest) := by
  constructor
  · intro dims nm a b hb hab
    have hcond : ¬((some a : Option ℕ) = some b ∨ (some a : Option ℕ) = none) := by
      simp [hab]
    simp only [registerAxis, hb]
    rw [if_neg hcond]
  · intro libv tbl code inp rest fi fi2 hopen hclean hoe hsf hdim
    have hw : writeStep tbl inp fi2 = .error .assertionError := by
      simp [writeStep, hsf, hdim, except_bind_error]
    have hpf : processFile libv tbl code inp = .ok 4 := by
      simp [processFile, hopen, hclean, hw, except_bind_ok]
    exact convertLoop_cons_ok libv tbl code inp rest 4 hpf

/-- Witness for C7 on a concrete conflicting table and catalog. -/
theorem C7_dimension_conflict_witness :
    registerAxis [("dd", some 3)] "dd" (some 4) = .error .assertionError ∧
    convertLoop vStr conflictTable 0 [conflictInput] =
      convertLoop vStr conflictTable 4 [] :=
  ⟨C7_dimension_conflict.1 [("dd", some 3)] "dd" 4 3 (by rfl) (by decide),
   C7_dimension_conflict.2 vStr conflictTable 0 conflictInput [] conflictInfo
     conflictCleaned (by rfl) (by rfl) (by rfl) (by rfl) (by rfl)⟩

theorem deleteVars_globalAttrs (fi : FileInfo) :
    (deleteVars fi).globalAttrs = fi.globalAttrs := by
  simp only [deleteVars, VARS_TO_DELETE, List.foldl_cons, List.foldl_nil]
  split <;> rfl

/-- C8 counterexample: on a concrete catalog carrying Image_Date, the
catalog object read from the source no longer holds Image_Date after the
conversion run — the pipeline mutated the raw catalog, which is therefore
not left unchanged. -/
theorem C8_counterexample :
    (catalogAfterRun vStr sampleInfo).map
        (fun fi => alookup fi.globalAttrs IMAGE_DATE_ATTR_NAME) = .ok none ∧
    alookup sampleInfo.globalAttrs IMAGE_DATE_ATTR_NAME = some (.str "115032") ∧
    catalogAfterRun vStr sampleInfo ≠ .ok sampleInfo := by
  refine ⟨by rfl, by rfl, ?_⟩
  intro hcon
  have h1 : (catalogAfterRun vStr sampleInfo).map
      (fun fi => alookup fi.globalAttrs IMAGE_DATE_ATTR_NAME) =
      .ok (some (.str "115032")) := by
    rw [hcon]
    rfl
  have h2 : (catalogAfterRun vStr sampleInfo).map
      (fun fi => alookup fi.globalAttrs IMAGE_DATE_ATTR_NAME) = .ok none := by rfl
  rw [h1] at h2
  simp at h2

/-- C8 amended: compliance_cleanup documents and performs in-place mutation
and the orchestrator passes it the very catalog read from the source, so
after a successful run the original catalog holds the rewritten attributes:
its Image_Date is gone, and whenever it had one the original catalog object
has changed. -/
theorem C8_in_place_mutation (libv : String) (src out : FileInfo)
    (h : catalogAfterRun libv src = .ok out) :
    alookup out.globalAttrs IMAGE_DATE_ATTR_NAME = none ∧
    ((alookup src.globalAttrs IMAGE_DATE_ATTR_NAME).isSome → out ≠ src) := by
  have hmain : alookup out.globalAttrs IMAGE_DATE_ATTR_NAME = none := by
    unfold catalogAfterRun compliance_cleanup at h
    cases hg : compliance_global libv src.globalAttrs with
    | error e =>
      rw [hg, except_bind_error] at h
      exact Except.noConfusion h
    | ok g =>
      rw [hg, except_bind_ok] at h
      cases hv : cleanupVars (deleteVars { src with globalAttrs := g }).varInfo with
      | error e =>
        rw [hv, except_bind_error] at h
        exact Except.noConfusion h
      | ok vi2 =>
        rw [hv, except_bind_ok] at h
        cases h
        show alookup (deleteVars { src with globalAttrs := g }).globalAttrs
          IMAGE_DATE_ATTR_NAME = none
        rw [deleteVars_globalAttrs]
        exact (compliance_global_erases libv src.globalAttrs g hg).1
  refine ⟨hmain, fun hsome hcon => ?_⟩
  rw [hcon] at hmain
  rw [hmain] at hsome
  exact Bool.noConfusion hsome

/-- Witness for the amended C8 at a concrete catalog. -/
theorem C8_in_place_mutation_witness :
    alookup sampleCleaned.globalAttrs IMAGE_DATE_ATTR_NAME = none ∧
    ((alookup sampleInfo.globalAttrs IMAGE_DATE_ATTR_NAME).isSome →
      sampleCleaned ≠ sampleInfo) :=
  C8_in_place_mutation vStr sampleInfo sampleCleaned (by rfl)

/-- One file's handling is either a batch crash, a pass-through (full
success: the incoming code is returned unchanged), or a failure that
overwrites the incoming code with its own non-zero code — in every case
independently of the incoming code. -/
theorem processFile_shape (libv : String) (tbl : List SpecialRule) (inp : InputFile) :
    (∃ e, ∀ code, processFile libv tbl code inp = .error e) ∨
    (∀ code, processFile libv tbl code inp = .ok code) ∨
    (∃ c, c ≠ 0 ∧ ∀ code, processFile libv tbl code inp = .ok c) := by
  cases ho : inp.openOk with
  | none =>
    exact .inl ⟨.typeError, fun code => by simp [processFile, ho]⟩
  | some fi =>
    cases hc : compliance_cleanup libv fi with
    | error e =>
      exact .inl ⟨e, fun code => by simp [processFile, ho, hc, except_bind_error]⟩
    | ok fi2 =>
      cases hw : writeStep tbl inp fi2 with
      | error e =>
        exact .inr (.inr ⟨4, by norm_num,
          fun code => by simp [processFile, ho, hc, hw, except_bind_ok]⟩)
      | ok u =>
        cases hoe : inp.outputExists with
        | false =>
          exact .inr (.inl
            (fun code => by simp [processFile, ho, hc, hw, hoe, except_bind_ok]))
        | true =>
          exact .inr (.inr ⟨3, by norm_num,
            fun code => by simp [processFile, ho, hc, hw, hoe, except_bind_ok]⟩)

/-- The batch loop returns 0 exactly when it started at 0 and every file was
a full pass-through. -/
theorem convertLoop_eq_zero (libv : String) (tbl : List SpecialRule) :
    ∀ (files : List InputFile) (code : ℕ),
      (convertLoop libv tbl code files = .ok 0 ↔
        code = 0 ∧ ∀ f ∈ files, fileOutcome libv tbl f = .ok 0) := by
  intro files
  induction files with
  | nil =>
    intro code
    simp [convertLoop]
  | cons f t ih =>
    intro code
    rcases processFile_shape libv tbl f with ⟨e, he⟩ | hpass | ⟨c, hc0, hc⟩
    · have hf : fileOutcome libv tbl f = .error e := he 0
      rw [convertLoop_cons_error libv tbl code f t e (he code)]
      constructor
      · intro h
        exact Except.noConfusion h
      · rintro ⟨-, hall⟩
        have h2 := hall f (List.mem_cons_self f t)
        rw [hf] at h2
        exact Except.noConfusion h2
    · have hf : fileOutcome libv tbl f = .ok 0 := hpass 0
      rw [convertLoop_cons_ok libv tbl code f t code (hpass code), ih code]
      simp [List.forall_mem_cons, hf]
    · have hf : fileOutcome libv tbl f = .ok c := hc 0
      rw [convertLoop_cons_ok libv tbl code f t c (hc code), ih c]
      constructor
      · rintro ⟨hceq, -⟩
        exact absurd hceq hc0
      · rintro ⟨-, hall⟩
        have h2 := hall f (List.mem_cons_self f t)
        rw [hf] at h2
        have hx : c = 0 := by
          cases h2
          rfl
        exact absurd hx hc0

/-- C9 counterexample: a batch whose first file fails with the sink-creation
code 4 and whose second fails with the output-exists code 3 returns 3 — the
last failure's code — and not any worst-case (max or bitwise) combination of
the per-file outcomes 4 and 3. -/
theorem C9_counterexample :
    hdf4_2_netcdf4 vStr [fileSinkFail] = .ok 4 ∧
    hdf4_2_netcdf4 vStr [fileOutExists] = .ok 3 ∧
    hdf4_2_netcdf4 vStr [fileSinkFail, fileOutExists] = .ok 3 ∧
    (3 : ℕ) ≠ max 4 3 ∧ (3 : ℕ) ≠ Nat.lor 4 3 :=
  ⟨by rfl, by rfl, by rfl, by decide, by decide⟩

/-- C9 amended: the batch status is 0 exactly when the input list is
non-empty and every file converts fully successfully; an empty list yields 1;
and a failing file overwrites the carried batch status with its own code (so
after the whole batch the status is the LAST failure's code, not a worst-case
combination of all per-file outcomes). -/
theorem C9_batch_status :
    (∀ (libv : String) (files : List InputFile),
      hdf4_2_netcdf4 libv files = .ok 0 ↔
        files ≠ [] ∧ ∀ f ∈ files, fileOutcome libv SPECIAL_VARIABLES f = .ok 0) ∧
    (∀ libv : String, hdf4_2_netcdf4 libv [] = .ok 1) ∧
    (∀ (libv : String) (code c : ℕ) (inp : InputFile) (rest : List InputFile),
      fileOutcome libv SPECIAL_VARIABLES inp = .ok c → c ≠ 0 →
      convertLoop libv SPECIAL_VARIABLES code (inp :: rest) =
        convertLoop libv SPECIAL_VARIABLES c rest) := by
  refine ⟨?_, fun libv => rfl, ?_⟩
  · intro libv files
    cases files with
    | nil =>
      simp [hdf4_2_netcdf4, hdf4_2_netcdf4T, convertLoop]
    | cons f t =>
      have e0 : hdf4_2_netcdf4 libv (f :: t) =
          convertLoop libv SPECIAL_VARIABLES 0 (f :: t) := rfl
      rw [e0, convertLoop_eq_zero]
      simp
  · intro libv code c inp rest hout hc0
    rcases processFile_shape libv SPECIAL_VARIABLES inp with ⟨e, he⟩ | hpass | ⟨c', hc0', hc'⟩
    · rw [fileOutcome, he 0] at hout
      exact Except.noConfusion hout
    · rw [fileOutcome, hpass 0] at hout
      have : c = 0 := by
        cases hout
        rfl
      exact absurd this hc0
    · have hcc : c' = c := by
        rw [fileOutcome, hc' 0] at hout
        cases hout
        rfl
      exact convertLoop_cons_ok libv SPECIAL_VARIABLES code inp rest c (hcc ▸ hc' code)

/-- Witness for the amended C9: a file whose output path exists overwrites
the carried status with 3. -/
theorem C9_batch_status_witness :
    convertLoop vStr SPECIAL_VARIABLES 0 [fileOutExists] =
      convertLoop vStr SPECIAL_VARIABLES 3 [] :=
  C9_batch_status.2.2 vStr 0 3 fileOutExists [] (by rfl) (by norm_num)

/-! ## Variable deletion and the resolver's domain -/

theorem alookup_isSome_iff_mem {β : Type} (m : AList β) (k : String) :
    (alookup m k).isSome ↔ k ∈ m.map Prod.fst := by
  rw [Option.isSome_iff_ne_none, ne_eq, alookup_eq_none_iff]
  exact not_not

theorem cleanupVars_isSome (l : AList VarInfo) (l' : AList VarInfo)
    (h : cleanupVars l = .ok l') (n : String) :
    (alookup l' n).isSome = (alookup l n).isSome := by
  induction l generalizing l' with
  | nil =>
    cases h
    rfl
  | cons p t ih =>
    cases p with
    | mk nm vi =>
      unfold cleanupVars at h
      cases hc : cleanup_variable nm vi.shape vi.attrs with
      | error e =>
        rw [hc, except_bind_error] at h
        exact Except.noConfusion h
      | ok a =>
        rw [hc, except_bind_ok] at h
        cases hr : cleanupVars t with
        | error e =>
          rw [hr, except_bind_error] at h
          exact Except.noConfusion h
        | ok rest =>
          rw [hr, except_bind_ok] at h
          cases h
          by_cases hn : nm = n
          · simp [alookup, hn]
          · simp [alookup, hn, ih rest hr]

theorem deleteVars_eq (fi : FileInfo) :
    deleteVars fi =
      if acontains fi.varInfo SCAN_LINE_TIME_VAR_NAME then
        { fi with
          varInfo := aerase fi.varInfo SCAN_LINE_TIME_VAR_NAME,
          varList := (aerase fi.varInfo SCAN_LINE_TIME_VAR_NAME).map Prod.fst }
      else fi := by
  rfl

theorem deleteVars_spec (fi : FileInfo)
    (hcons : fi.varList = fi.varInfo.map Prod.fst) :
    alookup (deleteVars fi).varInfo SCAN_LINE_TIME_VAR_NAME = none ∧
    SCAN_LINE_TIME_VAR_NAME ∉ (deleteVars fi).varList ∧
    (∀ n, n ≠ SCAN_LINE_TIME_VAR_NAME →
      alookup (deleteVars fi).varInfo n = alookup fi.varInfo n) := by
  rw [deleteVars_eq]
  by_cases h : acontains fi.varInfo SCAN_LINE_TIME_VAR_NAME
  · rw [if_pos h]
    refine ⟨alookup_aerase_self _ _, ?_, ?_⟩
    · exact (alookup_eq_none_iff _ _).mp (alookup_aerase_self _ _)
    · exact fun n hn => alookup_aerase_ne _ _ _ hn
  · rw [if_neg h]
    have hnone : alookup fi.varInfo SCAN_LINE_TIME_VAR_NAME = none := by
      unfold acontains at h
      exact Option.not_isSome_iff_eq_none.mp (by simpa using h)
    refine ⟨hnone, ?_, fun n _ => rfl⟩
    rw [hcons]
    exact (alookup_eq_none_iff _ _).mp hnone

theorem foldlM_cons_except {σ α : Type} (f : σ → α → Except PyError σ) (init : σ)
    (a : α) (t : List α) :
    List.foldlM f init (a :: t) = f init a >>= fun st => List.foldlM f st t := rfl

theorem pass1Elems_mem (st : P1State) (name : String) (b : ℕ) (n : String) :
    ((alookup (pass1Elems st name b).vdi n).isSome →
      (alookup st.vdi n).isSome ∨ n = name) ∧
    (n ∈ (pass1Elems st name b).deferred → n ∈ st.deferred ∨ n = name) := by
  unfold pass1Elems
  split
  · constructor
    · intro hs
      rcases (alookup_aset_isSome st.vdi name _ n).mp hs with h | h
      · exact .inr h
      · exact .inl h
    · exact fun hd => .inl hd
  · split
    · constructor
      · exact fun hs => .inl hs
      · intro hd
        rcases List.mem_append.mp hd with h | h
        · exact .inl h
        · exact .inr (List.mem_singleton.mp h)
    · constructor
      · intro hs
        rcases (alookup_aset_isSome st.vdi name _ n).mp hs with h | h
        · exact .inr h
        · exact .inl h
      · exact fun hd => .inl hd

theorem pass1Step_mem (tbl : List SpecialRule) (vinfo : AList VarInfo)
    (st : P1State) (a : String) (st' : P1State)
    (h : pass1Step tbl vinfo st a = .ok st') (n : String) :
    ((alookup st'.vdi n).isSome → (alookup st.vdi n).isSome ∨ n = a) ∧
    (n ∈ st'.deferred → n ∈ st.deferred ∨ n = a) := by
  unfold pass1Step at h
  split at h
  · cases h
    constructor
    · exact fun hs => .inl hs
    · intro hd
      rcases List.mem_append.mp hd with hx | hx
      · exact .inl hx
      · exact .inr (List.eq_of_mem_replicate hx)
  · split at h
    · exact Except.noConfusion h
    · split at h
      · split at h
        · cases h
          exact pass1Elems_mem _ _ _ n
        · split at h
          · cases h
            constructor
            · exact fun hs => .inl hs
            · intro hd
              rcases List.mem_append.mp hd with hx | hx
              · exact .inl hx
              · exact .inr (List.mem_singleton.mp hx)
          · cases h
            exact pass1Elems_mem _ _ _ n
      · cases h
        constructor
        · exact fun hs => .inl hs
        · intro hd
          rcases List.mem_append.mp hd with hx | hx
          · exact .inl hx
          · exact .inr (List.mem_singleton.mp hx)

theorem pass1_fold_mem (tbl : List SpecialRule) (vinfo : AList VarInfo) :
    ∀ (L : List String) (st0 st1 : P1State),
      L.foldlM (pass1Step tbl vinfo) st0 = .ok st1 →
      ∀ n : String,
        ((alookup st1.vdi n).isSome → (alookup st0.vdi n).isSome ∨ n ∈ L) ∧
        (n ∈ st1.deferred → n ∈ st0.deferred ∨ n ∈ L) := by
  intro L
  induction L with
  | nil =>
    intro st0 st1 h n
    cases h
    exact ⟨fun hs => .inl hs, fun hd => .inl hd⟩
  | cons a t ih =>
    intro st0 st1 h n
    rw [foldlM_cons_except] at h
    cases hstep : pass1Step tbl vinfo st0 a with
    | error e =>
      rw [hstep, except_bind_error] at h
      exact Except.noConfusion h
    | ok st' =>
      rw [hstep, except_bind_ok] at h
      have hstep2 := pass1Step_mem tbl vinfo st0 a st' hstep n
      have hrec := ih st' st1 h n
      constructor
      · intro hs
        rcases hrec.1 hs with h1 | h1
        · rcases hstep2.1 h1 with h2 | h2
          · exact .inl h2
          · exact .inr (by simp [h2])
        · exact .inr (by simp [h1])
      · intro hd
        rcases hrec.2 hd with h1 | h1
        · rcases hstep2.2 h1 with h2 | h2
          · exact .inl h2
          · exact .inr (by simp [h2])
        · exact .inr (by simp [h1])

theorem pass2Step_mem (tbl : List SpecialRule) (vinfo : AList VarInfo)
    (st : P2State) (a : String) (st' : P2State)
    (h : pass2Step tbl vinfo st a = .ok st') (n : String) :
    (alookup st'.vdi n).isSome → (alookup st.vdi n).isSome ∨ n = a := by
  unfold pass2Step at h
  split at h
  · rename_i r hfind
    cases hreg : registerDims st.dims r.dimNames r.sizes with
    | error e =>
      rw [hreg, except_bind_error] at h
      exact Except.noConfusion h
    | ok dims2 =>
      rw [hreg, except_bind_ok] at h
      cases h
      intro hs
      rcases (alookup_aset_isSome st.vdi a r.dimNames n).mp hs with h1 | h1
      · exact .inr h1
      · exact .inl h1
  · split at h
    · exact Except.noConfusion h
    · split at h
      · cases h
        intro hs
        rcases (alookup_aset_isSome st.vdi a [] n).mp hs with h1 | h1
        · exact .inr h1
        · exact .inl h1
      · exact Except.noConfusion h

theorem pass2_fold_mem (tbl : List SpecialRule) (vinfo : AList VarInfo) :
    ∀ (L : List String) (st0 st1 : P2State),
      L.foldlM (pass2Step tbl vinfo) st0 = .ok st1 →
      ∀ n : String,
        (alookup st1.vdi n).isSome → (alookup st0.vdi n).isSome ∨ n ∈ L := by
  intro L
  induction L with
  | nil =>
    intro st0 st1 h n
    cases h
    exact fun hs => .inl hs
  | cons a t ih =>
    intro st0 st1 h n
    rw [foldlM_cons_except] at h
    cases hstep : pass2Step tbl vinfo st0 a with
    | error e =>
      rw [hstep, except_bind_error] at h
      exact Except.noConfusion h
    | ok st' =>
      rw [hstep, except_bind_ok] at h
      intro hs
      rcases ih st' st1 h n hs with h1 | h1
      · rcases pass2Step_mem tbl vinfo st0 a st' hstep n h1 with h2 | h2
        · exact .inl h2
        · exact .inr (by simp [h2])
      · exact .inr (by simp [h1])

/-- A variable absent from the catalog's variable list never receives an
entry in the resolver's per-variable dimension assignment. -/
theorem determine_dimensions_domain (tbl : List SpecialRule) (fi : FileInfo)
    (dims : AList (Option ℕ)) (vdi : AList (List String))
    (h : determine_dimensionsT tbl fi = .ok (dims, vdi)) (n : String)
    (hn : n ∉ fi.varList) : alookup vdi n = none := by
  unfold determine_dimensionsT at h
  cases h1 : fi.varList.foldlM (pass1Step tbl fi.varInfo) ⟨[], [], [], none, none⟩ with
  | error e =>
    rw [h1, except_bind_error] at h
    exact Except.noConfusion h
  | ok st1 =>
    rw [h1, except_bind_ok] at h
    cases h2 : st1.deferred.foldlM (pass2Step tbl fi.varInfo) ⟨st1.dims, st1.vdi⟩ with
    | error e =>
      rw [h2, except_bind_error] at h
      exact Except.noConfusion h
    | ok st2 =>
      rw [h2, except_bind_ok] at h
      cases h
      by_contra habs
      have hsome : (alookup st2.vdi n).isSome :=
        Option.ne_none_iff_isSome.mp habs
      rcases pass2_fold_mem tbl fi.varInfo st1.deferred ⟨st1.dims, st1.vdi⟩ st2 h2 n
          hsome with h3 | h3
      · rcases (pass1_fold_mem tbl fi.varInfo fi.varList ⟨[], [], [], none, none⟩ st1
            h1 n).1 h3 with h4 | h4
        · simp [alookup] at h4
        · exact hn h4
      · rcases (pass1_fold_mem tbl fi.varInfo fi.varList ⟨[], [], [], none, none⟩ st1
            h1 n).2 h3 with h4 | h4
        · simp at h4
        · exact hn h4

/-- C10: compliance_cleanup removes every variable named in the deletion
list (here exactly scan_line_time) from both the variable-info map and the
variable list; it removes no other variable; and the deleted variable never
receives a dimension assignment from the resolver afterwards, so it is never
written to the output. -/
theorem C10_scan_line_time_removed (libv : String) (fi fi2 : FileInfo)
    (hcons : fi.varList = fi.varInfo.map Prod.fst)
    (h : compliance_cleanup libv fi = .ok fi2) :
    alookup fi2.varInfo SCAN_LINE_TIME_VAR_NAME = none ∧
    SCAN_LINE_TIME_VAR_NAME ∉ fi2.varList ∧
    (∀ n, n ≠ SCAN_LINE_TIME_VAR_NAME →
      (alookup fi2.varInfo n).isSome = (alookup fi.varInfo n).isSome) ∧
    (∀ (tbl : List SpecialRule) (dims : AList (Option ℕ)) (vdi : AList (List String)),
      determine_dimensionsT tbl fi2 = .ok (dims, vdi) →
      alookup vdi SCAN_LINE_TIME_VAR_NAME = none) := by
  unfold compliance_cleanup at h
  cases hg : compliance_global libv fi.globalAttrs with
  | error e =>
    rw [hg, except_bind_error] at h
    exact Except.noConfusion h
  | ok g =>
    rw [hg, except_bind_ok] at h
    cases hv : cleanupVars (deleteVars { fi with globalAttrs := g }).varInfo with
    | error e =>
      rw [hv, except_bind_error] at h
      exact Except.noConfusion h
    | ok vi2 =>
      rw [hv, except_bind_ok] at h
      cases h
      obtain ⟨d1, d2, d3⟩ := deleteVars_spec { fi with globalAttrs := g } hcons
      have hks := cleanupVars_isSome _ vi2 hv
      have h5 : (alookup vi2 SCAN_LINE_TIME_VAR_NAME).isSome = false := by
        rw [hks SCAN_LINE_TIME_VAR_NAME, d1]
        rfl
      refine ⟨?_, d2, ?_, ?_⟩
      · exact Option.not_isSome_iff_eq_none.mp (by simp [h5])
      · intro n hn
        have h6 := hks n
        rw [d3 n hn] at h6
        exact h6
      · intro tbl dims vdi hdd
        exact determine_dimensions_domain tbl _ dims vdi hdd SCAN_LINE_TIME_VAR_NAME d2

/-- Witness instantiating C4's library-version parameter. -/
theorem C4_open_failure_crashes_witness :
    hdf4_2_netcdf4 vStr [badInput, goodInput] = .error .typeError :=
  C4_open_failure_crashes vStr

/-- Witness instantiating the amended C5: the long-name category at the
multiply-matching name calibration_slope_degrade, and the range category at a
name matching both a channel pattern and the later pixel_ecosystem_type
pattern. -/
theorem C5_last_match_wins_witness :
    (alookup (addLongName "calibration_slope_degrade" []) LONG_NAME_ATTR_NAME =
      match lastLongName "calibration_slope_degrade" LONG_NAME_MAP with
      | some v => some (.str v)
      | none => alookup [] LONG_NAME_ATTR_NAME) ∧
    (alookup (addRanges "pixel_ecosystem_type_channel_7_reflectance" false [])
        VALID_RANGE_ATTR_NAME =
      match lastRangeRule "pixel_ecosystem_type_channel_7_reflectance" RANGE_LIMS_MAP with
      | some rng => some (.numList rng)
      | none => alookup [] VALID_RANGE_ATTR_NAME) :=
  ⟨(C5_last_match_wins "calibration_slope_degrade" []).1,
   (C5_last_match_wins "pixel_ecosystem_type_channel_7_reflectance" []).2.1⟩

/-- Witness instantiating the amended C6 at raw shape (10,). -/
theorem C6_wildcard_unlimited_witness :
    determine_dimensions ⟨[], ["scan_line_time"], [("scan_line_time", ⟨[10], []⟩)]⟩ =
      .ok ([(LINES_DIM_NAME, (none : Option ℕ))],
        [("scan_line_time", [LINES_DIM_NAME])]) :=
  C6_wildcard_unlimited [] 10 []

/-- Witness for C10 on a concrete catalog holding scan_line_time next to a
regular variable. -/
theorem C10_scan_line_time_removed_witness :
    alookup delCleaned.varInfo SCAN_LINE_TIME_VAR_NAME = none ∧
    SCAN_LINE_TIME_VAR_NAME ∉ delCleaned.varList ∧
    (∀ n, n ≠ SCAN_LINE_TIME_VAR_NAME →
      (alookup delCleaned.varInfo n).isSome = (alookup delFile.varInfo n).isSome) ∧
    (∀ (tbl : List SpecialRule) (dims : AList (Option ℕ)) (vdi : AList (List String)),
      determine_dimensionsT tbl delCleaned = .ok (dims, vdi) →
      alookup vdi SCAN_LINE_TIME_VAR_NAME = none) :=
  C10_scan_line_time_removed vStr delFile delCleaned (by rfl) (by rfl)

end GeoConv
